import Mathlib

/-!
Shallow embedding of the event-authoring lifecycle of the portfolio-explain
service: the JSON data model, the deep-merge patch engine, the completeness
calculator, the per-type payload validators with draft/patch/finalize, and
the free-text action gate (app/api/routes/events.py and app/api/routes/llm.py).
Numbers distinguish Python ints from floats; objects keep insertion order as
Python dicts do.
-/

/-- JSON values as the service stores and exchanges them (Python
dict/list/str/int/float/bool/None).  Python bools are a separate constructor,
but Python treats them as ints under isinstance; the predicates below account
for that where the source relies on it. -/
inductive Json where
  | null : Json
  | bool : Bool → Json
  | int : Int → Json
  | float : ℚ → Json
  | str : String → Json
  | arr : List Json → Json
  | obj : List (String × Json) → Json

/-- First-match association-list lookup, the behaviour of Python dict access
(dicts never hold duplicate keys). -/
def lookupJ : List (String × Json) → String → Option Json
  | [], _ => none
  | (k1, v1) :: rest, k => if k1 = k then some v1 else lookupJ rest k

/-- Python dict assignment out[k] = v: replace in place if the key exists,
append otherwise. -/
def setKey : List (String × Json) → String → Json → List (String × Json)
  | [], k, v => [(k, v)]
  | (k1, v1) :: rest, k, v =>
    if k1 = k then (k1, v) :: rest else (k1, v1) :: setKey rest k v

/-- Python payload.get(k) on an object: the value, or None when absent. -/
def Json.find : Json → String → Option Json
  | Json.obj kvs, k => lookupJ kvs k
  | _, _ => none

/-- Python payload.get(k) collapsing absence to null. -/
def Json.getD (j : Json) (k : String) : Json := (j.find k).getD Json.null

/-- Python `k in payload`. -/
def Json.hasKey (j : Json) (k : String) : Bool := (j.find k).isSome

/-- Python isinstance(v, dict). -/
def Json.isObj : Json → Bool
  | Json.obj _ => true
  | _ => false

/-- Python isinstance(v, str). -/
def Json.isStr : Json → Bool
  | Json.str _ => true
  | _ => false

/-- Entries of an object, empty for every other value. -/
def Json.objEntries : Json → List (String × Json)
  | Json.obj kvs => kvs
  | _ => []

/-- Python truthiness of a JSON value. -/
def Json.isTruthy : Json → Bool
  | Json.null => false
  | Json.bool b => b
  | Json.int n => n ≠ 0
  | Json.float q => q ≠ 0
  | Json.str s => s ≠ ""
  | Json.arr l => !l.isEmpty
  | Json.obj l => !l.isEmpty

/-- Python isinstance(v, int); bool is a subclass of int in Python. -/
def isPyInt : Json → Bool
  | Json.int _ => true
  | Json.bool _ => true
  | _ => false

/-- Python isinstance(v, (int, float)); bool counts as int. -/
def isPyNumber : Json → Bool
  | Json.int _ => true
  | Json.float _ => true
  | Json.bool _ => true
  | _ => false

/-- The integer a Python int-like value compares as (True is 1, False is 0). -/
def pyIntVal : Json → Int
  | Json.int n => n
  | Json.bool b => if b then 1 else 0
  | _ => 0

/-- The rational a Python number compares as. -/
def pyNumVal : Json → ℚ
  | Json.int n => (n : ℚ)
  | Json.float q => q
  | Json.bool b => if b then 1 else 0
  | _ => 0

/-- The characters Python str.strip() removes. -/
def pyWhitespace (c : Char) : Bool :=
  c = ' ' ∨ c = '\t' ∨ c = '\n' ∨ c = '\r' ∨ c = '\x0b' ∨ c = '\x0c'

/-- Python `not v.strip()` on a string: every character is whitespace. -/
def pyBlank (s : String) : Bool := s.toList.all pyWhitespace

/-- Python `x or {}` applied to a payload column (events.py line 615 etc.). -/
def jsonOrEmptyObj (p : Json) : Json := if p.isTruthy then p else Json.obj []

-- ---------------------------------------------------------------------
-- Merge Engine: events.py deep_merge_replace_lists (lines 95-117)
-- ---------------------------------------------------------------------

mutual

/-- events.py deep_merge_replace_lists: a None patch returns the base, two
dicts merge recursively, a list or scalar patch replaces outright. -/
def deep_merge_replace_lists (base patch : Json) : Json :=
  match patch with
  | Json.null => base
  | Json.obj pkvs =>
    match base with
    | Json.obj bkvs => Json.obj (deep_merge_into bkvs pkvs)
    | _ => Json.obj pkvs
  | _ => patch
termination_by sizeOf patch
decreasing_by all_goals simp_wf

/-- The loop `for k, v in patch.items()` of deep_merge_replace_lists, acting
on out = dict(base). -/
def deep_merge_into (out : List (String × Json)) (pkvs : List (String × Json)) :
    List (String × Json) :=
  match pkvs with
  | [] => out
  | (k, v) :: rest =>
    match lookupJ out k with
    | some bv => deep_merge_into (setKey out k (deep_merge_replace_lists bv v)) rest
    | none => deep_merge_into (out ++ [(k, v)]) rest
termination_by sizeOf pkvs
decreasing_by all_goals (simp_wf <;> omega)

end

-- ---------------------------------------------------------------------
-- Completeness Calculator: events.py compute_missing_fields (lines 190-281)
-- ---------------------------------------------------------------------

/-- events.py required_by_type table inside compute_missing_fields; the
.get(event_type) default (and the falsy check) yield [] for unknown types. -/
def required_by_type : String → List String
  | "INITIATE" =>
    ["direction", "horizon_days", "entry_thesis", "key_drivers", "key_risks",
     "invalidation_triggers", "conviction", "position_intent_pct"]
  | "THESIS_UPDATE" =>
    ["what_changed", "update_summary", "drivers_delta", "risks_delta",
     "triggers_delta", "conviction_delta", "confidence"]
  | "RISK_NOTE" => ["risk_type", "severity", "note", "action", "due_by"]
  | "RESIZE" => ["from_pct", "to_pct", "reason", "rationale", "constraints"]
  | "TICKER_RULE" => ["ticker", "rule_text", "tags", "status"]
  | "POST_MORTEM" =>
    ["outcome", "thesis_outcome", "process_adherence", "primary_reason",
     "what_worked", "what_failed", "rule_violations", "lesson"]
  | _ => []

/-- The dict-typed required keys of compute_missing_fields (line 276). -/
def dict_typed_keys : List String :=
  ["drivers_delta", "risks_delta", "triggers_delta", "constraints"]

/-- Python `isinstance(v, str) and not v.strip()`. -/
def isBlankStrJ : Json → Bool
  | Json.str s => pyBlank s
  | _ => false

/-- Python `isinstance(v, list) and len(v) == 0`. -/
def isEmptyArrJ : Json → Bool
  | Json.arr l => l.isEmpty
  | _ => false

/-- The `for k in required` loop of compute_missing_fields. -/
def compute_missing_go (payload : Json) : List String → List String
  | [] => []
  | k :: rest =>
    match payload.find k with
    | none => k :: compute_missing_go payload rest
    | some Json.null => k :: compute_missing_go payload rest
    | some v =>
      if isBlankStrJ v then k :: compute_missing_go payload rest
      else if isEmptyArrJ v then k :: compute_missing_go payload rest
      else if k ∈ dict_typed_keys ∧ ¬ v.isObj then k :: compute_missing_go payload rest
      else compute_missing_go payload rest

/-- events.py compute_missing_fields: deterministic missing-fields driver. -/
def compute_missing_fields (event_type : String) (payload : Json) : List String :=
  compute_missing_go payload (required_by_type event_type)

-- ---------------------------------------------------------------------
-- Schema Registry: events.py enum tables and payload validators
-- ---------------------------------------------------------------------

def EVENT_TYPES : List String :=
  ["INITIATE", "THESIS_UPDATE", "RISK_NOTE", "RESIZE", "TICKER_RULE", "POST_MORTEM"]

def INITIATE_DIRECTIONS : List String := ["LONG", "SHORT"]

def THESIS_UPDATE_WHAT_CHANGED : List String :=
  ["FUNDAMENTALS", "VALUATION", "TECHNICALS", "POSITIONING", "MACRO", "DATA"]

def RISK_TYPES : List String :=
  ["DRAWDOWN", "LIQUIDITY", "EARNINGS", "MACRO", "THESIS_BREAK", "POSITIONING", "OTHER"]

def RISK_SEVERITIES : List String := ["LOW", "MEDIUM", "HIGH"]

def RISK_ACTIONS : List String := ["MONITOR", "HEDGE", "REDUCE", "EXIT", "NONE"]

def RESIZE_REASONS : List String :=
  ["RISK", "THESIS", "PRICE", "CONSTRAINTS", "LIQUIDITY", "OTHER"]

def TICKER_RULE_STATUS : List String := ["ACTIVE", "INACTIVE"]

def POST_MORTEM_OUTCOME : List String := ["WIN", "LOSS", "FLAT"]

def POST_MORTEM_THESIS_OUTCOME : List String :=
  ["CONFIRMED", "PARTIALLY_CONFIRMED", "INVALIDATED"]

def POST_MORTEM_PROCESS_ADHERENCE : List String := ["HIGH", "MEDIUM", "LOW"]

def POST_MORTEM_PRIMARY_REASON : List String :=
  ["THESIS", "TIMING", "RISK_MGMT", "EXOGENOUS"]

def STATUS_DRAFT : String := "DRAFT"

def STATUS_FINAL : String := "FINAL"

/-- events.py require_keys: every listed key must be present (HTTP 400
otherwise); raised errors are modelled as Except.error with the message. -/
def require_keys (payload : Json) (keys : List String) (label : String) :
    Except String Unit :=
  match keys with
  | [] => Except.ok ()
  | k :: rest =>
    if payload.hasKey k then require_keys payload rest label
    else Except.error ("Missing " ++ label ++ " payload key " ++ k)

/-- events.py require_enum: a non-member (or non-string) value is rejected. -/
def require_enum (value : Json) (allowed : List String) (label : String) :
    Except String Unit :=
  match value with
  | Json.str s => if s ∈ allowed then Except.ok () else Except.error (label ++ " invalid value")
  | _ => Except.error (label ++ " invalid value")

/-- events.py require_str: a string, non-empty after strip unless allow_empty. -/
def require_str (value : Json) (label : String) (allow_empty : Bool) :
    Except String Unit :=
  match value with
  | Json.str s =>
    if ¬ allow_empty ∧ pyBlank s then Except.error (label ++ " must be non-empty")
    else Except.ok ()
  | _ => Except.error (label ++ " must be a string")

/-- events.py require_list_of_str. -/
def require_list_of_str (value : Json) (label : String) : Except String Unit :=
  match value with
  | Json.arr l =>
    if l.all Json.isStr then Except.ok ()
    else Except.error (label ++ " must be an array of strings")
  | _ => Except.error (label ++ " must be an array of strings")

/-- events.py require_number_or_null. -/
def require_number_or_null (value : Json) (label : String) : Except String Unit :=
  match value with
  | Json.null => Except.ok ()
  | v => if isPyNumber v then Except.ok () else Except.error (label ++ " must be a number or null")

def INITIATE_REQUIRED : List String :=
  ["direction", "horizon_days", "entry_thesis", "key_drivers", "key_risks",
   "invalidation_triggers", "conviction", "position_intent_pct"]

/-- events.py validate_initiate. -/
def validate_initiate (payload : Json) : Except String Unit := do
  require_keys payload INITIATE_REQUIRED "INITIATE"
  require_enum (payload.getD "direction") INITIATE_DIRECTIONS "INITIATE.direction"
  if ¬ isPyInt (payload.getD "horizon_days") then
    throw "INITIATE.horizon_days must be int"
  require_str (payload.getD "entry_thesis") "INITIATE.entry_thesis" false
  require_list_of_str (payload.getD "key_drivers") "INITIATE.key_drivers"
  require_list_of_str (payload.getD "key_risks") "INITIATE.key_risks"
  require_list_of_str (payload.getD "invalidation_triggers") "INITIATE.invalidation_triggers"
  if ¬ isPyInt (payload.getD "conviction") then
    throw "INITIATE.conviction must be int"
  if pyIntVal (payload.getD "conviction") < 0 ∨ pyIntVal (payload.getD "conviction") > 100 then
    throw "INITIATE.conviction out of range (0..100)"
  require_number_or_null (payload.getD "position_intent_pct") "INITIATE.position_intent_pct"

def THESIS_UPDATE_REQUIRED : List String :=
  ["what_changed", "update_summary", "drivers_delta", "risks_delta",
   "triggers_delta", "conviction_delta", "confidence"]

def THESIS_DELTA_KEYS : List String := ["drivers_delta", "risks_delta", "triggers_delta"]

/-- The body of validate_thesis_update's `for delta_key in [...]` loop: the
value must be an object carrying add and remove as lists of strings.  The
source indexes payload[delta_key] directly; require_keys has guaranteed the
key is present whenever this runs inside validate_thesis_update. -/
def check_delta (payload : Json) (delta_key : String) : Except String Unit :=
  match payload.getD delta_key with
  | Json.obj kvs =>
    if ¬ (Json.obj kvs).hasKey "add" ∨ ¬ (Json.obj kvs).hasKey "remove" then
      Except.error ("THESIS_UPDATE." ++ delta_key ++ " must be object with add/remove")
    else do
      require_list_of_str ((Json.obj kvs).getD "add") ("THESIS_UPDATE." ++ delta_key ++ ".add")
      require_list_of_str ((Json.obj kvs).getD "remove") ("THESIS_UPDATE." ++ delta_key ++ ".remove")
  | _ => Except.error ("THESIS_UPDATE." ++ delta_key ++ " must be object with add/remove")

/-- events.py validate_thesis_update. -/
def validate_thesis_update (payload : Json) : Except String Unit := do
  require_keys payload THESIS_UPDATE_REQUIRED "THESIS_UPDATE"
  require_enum (payload.getD "what_changed") THESIS_UPDATE_WHAT_CHANGED "THESIS_UPDATE.what_changed"
  require_str (payload.getD "update_summary") "THESIS_UPDATE.update_summary" false
  check_delta payload "drivers_delta"
  check_delta payload "risks_delta"
  check_delta payload "triggers_delta"
  if ¬ isPyInt (payload.getD "conviction_delta") then
    throw "THESIS_UPDATE.conviction_delta must be int"
  if pyIntVal (payload.getD "conviction_delta") < -20 ∨ pyIntVal (payload.getD "conviction_delta") > 20 then
    throw "THESIS_UPDATE.conviction_delta out of range (-20..20)"
  if ¬ isPyNumber (payload.getD "confidence") then
    throw "THESIS_UPDATE.confidence must be number"
  if pyNumVal (payload.getD "confidence") < 0 ∨ pyNumVal (payload.getD "confidence") > 1 then
    throw "THESIS_UPDATE.confidence out of range (0..1)"

/-- events.py validate_risk_note. -/
def validate_risk_note (payload : Json) : Except String Unit := do
  require_keys payload ["risk_type", "severity", "note", "action", "due_by"] "RISK_NOTE"
  require_enum (payload.getD "risk_type") RISK_TYPES "RISK_NOTE.risk_type"
  require_enum (payload.getD "severity") RISK_SEVERITIES "RISK_NOTE.severity"
  require_enum (payload.getD "action") RISK_ACTIONS "RISK_NOTE.action"
  require_str (payload.getD "note") "RISK_NOTE.note" false
  match payload.getD "due_by" with
  | Json.null => pure ()
  | Json.str _ => pure ()
  | _ => throw "RISK_NOTE.due_by must be YYYY-MM-DD string or null"

/-- The `for k in [...]` loop over constraint flags of validate_resize. -/
def check_constraint_flags (c : Json) : List String → Except String Unit
  | [] => Except.ok ()
  | k :: rest =>
    match c.find k with
    | some (Json.bool _) => check_constraint_flags c rest
    | _ => Except.error ("RESIZE.constraints." ++ k ++ " must be boolean")

/-- events.py validate_resize. -/
def validate_resize (payload : Json) : Except String Unit := do
  require_keys payload ["from_pct", "to_pct", "reason", "rationale", "constraints"] "RESIZE"
  require_number_or_null (payload.getD "from_pct") "RESIZE.from_pct"
  if ¬ isPyNumber (payload.getD "to_pct") then
    throw "RESIZE.to_pct must be number"
  require_enum (payload.getD "reason") RESIZE_REASONS "RESIZE.reason"
  require_str (payload.getD "rationale") "RESIZE.rationale" false
  match payload.getD "constraints" with
  | Json.obj kvs =>
    check_constraint_flags (Json.obj kvs)
      ["adv_cap_binding", "gross_cap_binding", "net_cap_binding"]
  | _ => throw "RESIZE.constraints must be object"

/-- events.py validate_ticker_rule. -/
def validate_ticker_rule (payload : Json) : Except String Unit := do
  require_keys payload ["ticker", "rule_text", "tags", "status"] "TICKER_RULE"
  require_str (payload.getD "ticker") "TICKER_RULE.ticker" false
  require_str (payload.getD "rule_text") "TICKER_RULE.rule_text" false
  require_list_of_str (payload.getD "tags") "TICKER_RULE.tags"
  require_enum (payload.getD "status") TICKER_RULE_STATUS "TICKER_RULE.status"

def POST_MORTEM_REQUIRED : List String :=
  ["outcome", "thesis_outcome", "process_adherence", "primary_reason",
   "what_worked", "what_failed", "rule_violations", "lesson"]

/-- events.py validate_post_mortem. -/
def validate_post_mortem (payload : Json) : Except String Unit := do
  require_keys payload POST_MORTEM_REQUIRED "POST_MORTEM"
  require_enum (payload.getD "outcome") POST_MORTEM_OUTCOME "POST_MORTEM.outcome"
  require_enum (payload.getD "thesis_outcome") POST_MORTEM_THESIS_OUTCOME "POST_MORTEM.thesis_outcome"
  require_enum (payload.getD "process_adherence") POST_MORTEM_PROCESS_ADHERENCE "POST_MORTEM.process_adherence"
  require_enum (payload.getD "primary_reason") POST_MORTEM_PRIMARY_REASON "POST_MORTEM.primary_reason"
  require_str (payload.getD "what_worked") "POST_MORTEM.what_worked" false
  require_str (payload.getD "what_failed") "POST_MORTEM.what_failed" false
  match payload.getD "rule_violations" with
  | Json.arr l =>
    if l.all Json.isStr then pure ()
    else throw "POST_MORTEM.rule_violations must be array of strings"
  | _ => throw "POST_MORTEM.rule_violations must be array of strings"
  match payload.getD "lesson" with
  | Json.null => pure ()
  | lesson => require_str lesson "POST_MORTEM.lesson" false

/-- events.py validate_payload: dispatch by event type. -/
def validate_payload (event_type : String) (payload : Json) : Except String Unit :=
  if event_type = "INITIATE" then validate_initiate payload
  else if event_type = "THESIS_UPDATE" then validate_thesis_update payload
  else if event_type = "RISK_NOTE" then validate_risk_note payload
  else if event_type = "RESIZE" then validate_resize payload
  else if event_type = "TICKER_RULE" then validate_ticker_rule payload
  else if event_type = "POST_MORTEM" then validate_post_mortem payload
  else Except.error "Unsupported event_type"

-- ---------------------------------------------------------------------
-- Event Lifecycle Controller: events.py patch_draft_event / finalize_event
-- ---------------------------------------------------------------------

/-- The persisted DecisionEvent as far as the lifecycle claims touch it
(identifiers and timestamps carry no validation logic and are omitted). -/
structure DecisionEvent where
  event_type : String
  payload : Json
  status : String

/-- The lifecycle error taxonomy (HTTP 400/409 responses of events.py). -/
inductive LifecycleErr where
  | badRequest : String → LifecycleErr
  | conflictNotDraft : LifecycleErr
  | missingFields : List String → LifecycleErr
  | validationError : String → LifecycleErr
deriving DecidableEq

/-- events.py patch_draft_event (lines 549-591) acting on the event the
route looked up: body checks, the DRAFT guard, then the deep merge. -/
def patch_draft_event (de : DecisionEvent) (body : Json) :
    Except LifecycleErr DecisionEvent :=
  if ¬ body.isObj then Except.error (LifecycleErr.badRequest "Body must be a JSON object")
  else if ¬ (body.getD "payload_patch").isObj then
    Except.error (LifecycleErr.badRequest "payload_patch must be a JSON object")
  else if de.status ≠ STATUS_DRAFT then Except.error LifecycleErr.conflictNotDraft
  else
    Except.ok
      { de with
        payload := deep_merge_replace_lists (jsonOrEmptyObj de.payload) (body.getD "payload_patch") }

/-- events.py finalize_event (lines 594-634) acting on the event the route
looked up: the DRAFT guard, the missing-fields gate, then full validation,
then the DRAFT -> FINAL flip. -/
def finalize_event (de : DecisionEvent) : Except LifecycleErr DecisionEvent :=
  if de.status ≠ STATUS_DRAFT then Except.error LifecycleErr.conflictNotDraft
  else
    match compute_missing_fields de.event_type (jsonOrEmptyObj de.payload) with
    | [] =>
      match validate_payload de.event_type (jsonOrEmptyObj de.payload) with
      | Except.error e => Except.error (LifecycleErr.validationError e)
      | Except.ok _ => Except.ok { de with status := STATUS_FINAL }
    | m :: rest => Except.error (LifecycleErr.missingFields (m :: rest))

/-- The stored state after a patch call: the route only commits on the
success path, every raised error leaves the row untouched. -/
def apply_patch (de : DecisionEvent) (body : Json) : DecisionEvent :=
  match patch_draft_event de body with
  | Except.ok r => r
  | Except.error _ => de

/-- The stored state after a finalize call; errors commit nothing. -/
def apply_finalize (de : DecisionEvent) : DecisionEvent :=
  match finalize_event de with
  | Except.ok r => r
  | Except.error _ => de

/-- True exactly on Except.ok (no exception raised). -/
def except_ok {ε α : Type} : Except ε α → Bool
  | Except.ok _ => true
  | Except.error _ => false

-- ---------------------------------------------------------------------
-- Action Gate: llm.py helpers (lines 126-221) and llm_interpret (373-577)
-- ---------------------------------------------------------------------

def isUpperAZ (c : Char) : Bool := 'A' ≤ c ∧ c ≤ 'Z'

def isLowerAZ (c : Char) : Bool := 'a' ≤ c ∧ c ≤ 'z'

def isDigit09 (c : Char) : Bool := '0' ≤ c ∧ c ≤ '9'

def isUpperDigit (c : Char) : Bool := isUpperAZ c ∨ isDigit09 c

/-- A regex word character; the service only ever feeds ASCII command text,
so the ASCII fragment of re's \w is the faithful one. -/
def isWordChar (c : Char) : Bool :=
  isUpperAZ c ∨ isLowerAZ c ∨ isDigit09 c ∨ c = '_'

/-- The trailing word boundary of the ticker pattern: end of input or a
non-word character next. -/
def wordBoundaryHere : List Char → Bool
  | [] => true
  | c :: _ => ¬ isWordChar c

/-- After the body of the ticker token: the optional `.` + uppercase suffix
(tried greedily first) or a bare word boundary; the characters consumed. -/
def ticker_suffix_or_end (cs : List Char) : Option Nat :=
  match cs with
  | '.' :: d :: rest =>
    if isUpperAZ d ∧ wordBoundaryHere rest then some 2
    else if wordBoundaryHere cs then some 0
    else none
  | _ => if wordBoundaryHere cs then some 0 else none

/-- Backtracking of `[A-Z0-9]{0,5}(?:\.[A-Z])?\b` after the leading letter:
consume greedily, falling back to shorter bodies, exactly the order the re
engine tries; returns the characters consumed after the leading letter. -/
def ticker_body_match (cs : List Char) (fuel : Nat) : Option Nat :=
  let deeper : Option Nat :=
    match fuel, cs with
    | Nat.succ f, c :: rest =>
      if isUpperDigit c then ticker_body_match rest f else none
    | _, _ => none
  match deeper with
  | some n => some (n + 1)
  | none => ticker_suffix_or_end cs

/-- A match of llm.py _TICKER_TOKEN_RE starting exactly at this position
(the leading \b holds iff the first character is a word character, which
[A-Z] then narrows); returns the total match length. -/
def ticker_match_at (cs : List Char) : Option Nat :=
  match cs with
  | c :: rest => if isUpperAZ c then (ticker_body_match rest 5).map (· + 1) else none
  | [] => none

/-- llm.py line 400 `_TICKER_TOKEN_RE.match(t)`: re.match anchors at the
start of the string only, not at its end. -/
def ticker_token_match (s : String) : Bool :=
  (ticker_match_at s.toList).isSome

/-- The scan loop of `_TICKER_TOKEN_RE.findall`: left to right,
non-overlapping, each match consumed whole; the flag records whether the
previous character was a word character (for the leading \b).  The fuel is
structural bookkeeping only: every step consumes at least one character, so
a fuel of the input length never runs out. -/
def scan_tokens : Nat → List Char → Bool → List String
  | 0, _, _ => []
  | _, [], _ => []
  | Nat.succ f, c :: rest, prevW =>
    if ¬ prevW ∧ isUpperAZ c then
      match ticker_body_match rest 5 with
      | some n => String.mk (c :: rest.take n) :: scan_tokens f (rest.drop n) true
      | none => scan_tokens f rest (isWordChar c)
    else scan_tokens f rest (isWordChar c)

/-- The stable-unique pass of extract_allowed_tickers. -/
def unique_keep_order : List String → List String → List String
  | [], _ => []
  | x :: xs, seen =>
    if x ∈ seen then unique_keep_order xs seen
    else x :: unique_keep_order xs (x :: seen)

/-- llm.py extract_allowed_tickers: explicit uppercase tokens in the text,
first occurrence order, duplicates dropped. -/
def extract_allowed_tickers (text : String) : List String :=
  if text = "" then []
  else unique_keep_order (scan_tokens text.toList.length text.toList false) []

/-- llm.py ALLOWED_EVENT_TYPES. -/
def ALLOWED_EVENT_TYPES : List String :=
  ["INITIATE", "THESIS_UPDATE", "RISK_NOTE", "RESIZE", "TICKER_RULE", "POST_MORTEM"]

/-- llm.py SEED_ALLOWLIST with the .get default []. -/
def SEED_ALLOWLIST : String → List String
  | "INITIATE" => []
  | "THESIS_UPDATE" => ["update_summary"]
  | "RISK_NOTE" => ["note"]
  | "RESIZE" => ["rationale"]
  | "TICKER_RULE" => ["rule_text"]
  | "POST_MORTEM" => ["lesson"]
  | _ => []

/-- Whether a JSON value is hashable as a Python dict key (lists and dicts
are not; looking one up raises TypeError). -/
def isHashable : Json → Bool
  | Json.arr _ => false
  | Json.obj _ => false
  | _ => true

/-- llm.py _sanitize_seed_payload: falsy or non-dict seed, falsy event type,
or an empty allowlist yield None; otherwise the seed filtered to allowlisted
keys.  An unhashable truthy event_type makes SEED_ALLOWLIST.get raise. -/
def sanitize_seed_payload (event_type : Json) (seed : Json) : Except String Json :=
  match seed with
  | Json.obj kvs =>
    if kvs.isEmpty then Except.ok Json.null
    else if ¬ event_type.isTruthy then Except.ok Json.null
    else if ¬ isHashable event_type then Except.error "unhashable event_type dict key"
    else
      let allowed := match event_type with
        | Json.str s => SEED_ALLOWLIST s
        | _ => []
      if allowed.isEmpty then Except.ok Json.null
      else Except.ok (Json.obj (kvs.filter (fun kv => kv.1 ∈ allowed)))
  | _ => Except.ok Json.null

/-- llm.py _action_ok_against_allowlists: the ticker gate (list membership,
no hashing), then the event-type gate — set membership, which hashes the
value, so a non-null unhashable (array/object) event_type raises TypeError —
then the ANSWER_FIELD field gate (Python truthiness of pending_field
included). -/
def action_ok_against_allowlists (action : Json) (allowed_tickers : List String)
    (pending_field : Option String) (allow_answer_fields : Option (List String)) :
    Except String Bool :=
  let tickerOk : Bool := match action.getD "ticker" with
    | Json.null => true
    | Json.str t => t ∈ allowed_tickers
    | _ => false
  if tickerOk = false then Except.ok false
  else if isHashable (action.getD "event_type") = false then
    Except.error "unhashable event_type in set membership"
  else
    let evOk : Bool := match action.getD "event_type" with
      | Json.null => true
      | Json.str s => s ∈ ALLOWED_EVENT_TYPES
      | _ => false
    if evOk = false then Except.ok false
    else
      Except.ok
       (match action.getD "type" with
        | Json.str "ANSWER_FIELD" =>
          (match action.getD "field" with
           | Json.str f =>
             if f = "" then false
             else
               match pending_field with
               | some pf =>
                 if pf ≠ "" then decide (f = pf)
                 else
                   (match allow_answer_fields with
                    | some l => decide (f ∈ l)
                    | none => false)
               | none =>
                 match allow_answer_fields with
                 | some l => decide (f ∈ l)
                 | none => false
           | _ => false)
        | _ => true)

def DEFAULT_NOOP_MESSAGE : String :=
  "Use an uppercase ticker (e.g., AAPL) and commands like: ticker AAPL, long AAPL, update:, risk:, size:, rule:, post:."

/-- llm.py _default_noop. -/
def default_noop : Json :=
  Json.obj
    [("mode", Json.str "NOOP"), ("confidence", Json.float 0),
     ("action", Json.null), ("clarify", Json.null),
     ("message", Json.str DEFAULT_NOOP_MESSAGE)]

def spanDigits (cs : List Char) : List Char × List Char :=
  (cs.takeWhile isDigit09, cs.dropWhile isDigit09)

def natOfDigits (l : List Char) : Nat :=
  l.foldl (fun a c => a * 10 + (c.toNat - 48)) 0

def pow10 (n : Nat) : ℚ := (10 : ℚ) ^ n

def parseExpDigits (cs : List Char) (m : ℚ) (neg : Bool) : Option ℚ :=
  let (ds, rest) := spanDigits cs
  if ds.isEmpty ∨ ¬ rest.isEmpty then none
  else some (if neg then m / pow10 (natOfDigits ds) else m * pow10 (natOfDigits ds))

def parseSignedExp (cs : List Char) (m : ℚ) : Option ℚ :=
  match cs with
  | '+' :: r => parseExpDigits r m false
  | '-' :: r => parseExpDigits r m true
  | r => parseExpDigits r m false

def parseExpTail (cs : List Char) (m : ℚ) : Option ℚ :=
  match cs with
  | [] => some m
  | 'e' :: rest => parseSignedExp rest m
  | 'E' :: rest => parseSignedExp rest m
  | _ => none

def parseMantissa (cs : List Char) : Option ℚ :=
  let (ip, r1) := spanDigits cs
  match r1 with
  | '.' :: r2 =>
    let (fp, r3) := spanDigits r2
    if ip.isEmpty ∧ fp.isEmpty then none
    else parseExpTail r3 ((natOfDigits ip : ℚ) + (natOfDigits fp : ℚ) / pow10 fp.length)
  | _ => if ip.isEmpty then none else parseExpTail r1 (natOfDigits ip : ℚ)

/-- Python float() applied to a str: surrounding whitespace, optional sign,
decimal mantissa with optional fraction and exponent; none models the raised
ValueError.  The inf/nan spellings are not modelled (no theorem below feeds
them, and the gate's comparisons never see them from a conforming oracle). -/
def pyFloatOfString (s : String) : Option ℚ :=
  let cs := s.toList.dropWhile pyWhitespace
  let cs := (cs.reverse.dropWhile pyWhitespace).reverse
  match cs with
  | '+' :: rest => parseMantissa rest
  | '-' :: rest => (parseMantissa rest).map (fun q => -q)
  | rest => parseMantissa rest

/-- llm.py line 482 `float(out.get("confidence") or 0.0)`: falsy confidence
becomes 0.0; a number or bool casts; a string parses or raises; a truthy
list/dict raises TypeError. -/
def conf_of (out : Json) : Option ℚ :=
  let c := out.getD "confidence"
  let c := if c.isTruthy then c else Json.float 0
  match c with
  | Json.int n => some (n : ℚ)
  | Json.float q => some q
  | Json.bool b => some (if b then 1 else 0)
  | Json.str s => pyFloatOfString s
  | _ => none

/-- llm.py EXECUTE_MIN = 0.80, written as a normalized fraction so the
kernel can evaluate comparisons (see EXECUTE_MIN_eq). -/
def EXECUTE_MIN : ℚ := ⟨4, 5, by decide, by decide⟩

/-- llm.py CLARIFY_MIN = 0.40, written as a normalized fraction so the
kernel can evaluate comparisons (see CLARIFY_MIN_eq). -/
def CLARIFY_MIN : ℚ := ⟨2, 5, by decide, by decide⟩

theorem EXECUTE_MIN_eq : EXECUTE_MIN = 0.80 := by
  have h : EXECUTE_MIN = (4 : ℚ) / 5 := by
    rw [EXECUTE_MIN, Rat.mk'_eq_divInt, Rat.divInt_eq_div]; norm_num
  rw [h]; norm_num

theorem CLARIFY_MIN_eq : CLARIFY_MIN = 0.40 := by
  have h : CLARIFY_MIN = (2 : ℚ) / 5 := by
    rw [CLARIFY_MIN, Rat.mk'_eq_divInt, Rat.divInt_eq_div]; norm_num
  rw [h]; norm_num

/-- The NOOP return of llm_interpret (lines 500-507): the `[:200]` slice of
a truthy string or list message succeeds (a list is carried into the
response), while a truthy dict, int, float, or bool message raises
TypeError. -/
def gate_noop_branch (out : Json) (conf : ℚ) : Except String Json :=
  let message := out.getD "message"
  let m := if message.isTruthy then message else Json.str DEFAULT_NOOP_MESSAGE
  match m with
  | Json.str s =>
    Except.ok (Json.obj
      [("mode", Json.str "NOOP"), ("confidence", Json.float conf),
       ("action", Json.null), ("clarify", Json.null),
       ("message", Json.str (s.take 200))])
  | Json.arr l =>
    Except.ok (Json.obj
      [("mode", Json.str "NOOP"), ("confidence", Json.float conf),
       ("action", Json.null), ("clarify", Json.null),
       ("message", Json.arr (l.take 200))])
  | _ => Except.error "slice of unsliceable message"

/-- The EXECUTE branch of llm_interpret (lines 509-532): sanitize the seed
payload in place, then the deterministic allowlist gate. -/
def gate_execute_branch (out : Json) (conf : ℚ) (ats : List String)
    (pf : Option String) (aaf : Option (List String)) : Except String Json :=
  match out.getD "action" with
  | Json.obj akvs => do
    let sp ← sanitize_seed_payload ((Json.obj akvs).getD "event_type")
      ((Json.obj akvs).getD "seed_payload")
    let action2 := Json.obj (setKey akvs "seed_payload" sp)
    let ok ← action_ok_against_allowlists action2 ats pf aaf
    if ok then
      pure (Json.obj
        [("mode", Json.str "EXECUTE"), ("confidence", Json.float conf),
         ("action", action2), ("clarify", Json.null), ("message", Json.null)])
    else pure default_noop
  | _ => Except.ok default_noop

/-- One iteration of the clarify-choice cleaning loop (lines 544-566). -/
def clean_choice (ch : Json) (ats : List String) (pf : Option String)
    (aaf : Option (List String)) : Except String (Option Json) :=
  match ch with
  | Json.obj _ =>
    match ch.getD "label", ch.getD "action" with
    | Json.str label, Json.obj akvs => do
      let sp ← sanitize_seed_payload ((Json.obj akvs).getD "event_type")
        ((Json.obj akvs).getD "seed_payload")
      let ca2 := Json.obj (setKey akvs "seed_payload" sp)
      let ok ← action_ok_against_allowlists ca2 ats pf aaf
      if ok then
        pure (some (Json.obj [("label", Json.str (label.take 60)), ("action", ca2)]))
      else pure none
    | _, _ => Except.ok none
  | _ => Except.ok none

/-- The clarify-choice cleaning loop over all choices. -/
def clean_choices (chs : List Json) (ats : List String) (pf : Option String)
    (aaf : Option (List String)) : Except String (List Json) :=
  match chs with
  | [] => Except.ok []
  | ch :: rest => do
    let o ← clean_choice ch ats pf aaf
    let tail ← clean_choices rest ats pf aaf
    match o with
    | some c => pure (c :: tail)
    | none => pure tail

/-- The CLARIFY branch of llm_interpret (lines 534-577). -/
def gate_clarify_branch (out : Json) (conf : ℚ) (ats : List String)
    (pf : Option String) (aaf : Option (List String)) : Except String Json :=
  match out.getD "clarify" with
  | Json.obj ckvs =>
    match (Json.obj ckvs).getD "question", (Json.obj ckvs).getD "choices" with
    | Json.str q, Json.arr choices =>
      if ¬ (2 ≤ choices.length ∧ choices.length ≤ 5) then Except.ok default_noop
      else do
        let cleaned ← clean_choices choices ats pf aaf
        if cleaned.length < 2 then pure default_noop
        else
          pure (Json.obj
            [("mode", Json.str "CLARIFY"), ("confidence", Json.float conf),
             ("action", Json.null),
             ("clarify", Json.obj
               [("question", Json.str (q.take 200)),
                ("choices", Json.arr (cleaned.take 5))]),
             ("message", Json.null)])
    | _, _ => Except.ok default_noop
  | _ => Except.ok default_noop

/-- llm_interpret's hard normalization + gating of the oracle output (lines
477-577): non-dict output degrades, the confidence casts (or raises), then
the `mode not in` test — set membership, which hashes the value, so an
unhashable (array/object) mode raises TypeError while any other unknown mode
degrades — then the two-threshold confidence policy applies and the mode
branch runs. -/
def gate_out (out : Json) (ats : List String) (pf : Option String)
    (aaf : Option (List String)) : Except String Json :=
  if ¬ out.isObj then Except.ok default_noop
  else
    match conf_of out with
    | none => Except.error "float() raised on confidence"
    | some conf =>
      match out.getD "mode" with
      | Json.str mode0 =>
        if ¬ (mode0 = "EXECUTE" ∨ mode0 = "CLARIFY" ∨ mode0 = "NOOP") then
          Except.ok default_noop
        else
          let mode := if mode0 = "EXECUTE" ∧ conf < EXECUTE_MIN then "CLARIFY" else mode0
          if mode = "CLARIFY" ∧ conf < CLARIFY_MIN then Except.ok default_noop
          else if mode = "NOOP" then gate_noop_branch out conf
          else if mode = "EXECUTE" then gate_execute_branch out conf ats pf aaf
          else gate_clarify_branch out conf ats pf aaf
      | Json.arr _ => Except.error "unhashable mode in set membership"
      | Json.obj _ => Except.error "unhashable mode in set membership"
      | _ => Except.ok default_noop

/-- Python str() on the values body.get("text", "") can produce.  Strings,
None, bools and ints render exactly as CPython does; float/list/dict
renderings are approximate (every theorem below feeds only strings, and the
service callers send text as a string). -/
def pyStr : Json → String
  | Json.str s => s
  | Json.null => "None"
  | Json.bool true => "True"
  | Json.bool false => "False"
  | Json.int n => toString n
  | Json.float q => toString q.num ++ "/" ++ toString q.den
  | Json.arr _ => "[...]"
  | Json.obj _ => "\x7b...\x7d"

/-- Python str.strip(). -/
def pyStrip (s : String) : String :=
  String.mk (((s.toList.dropWhile pyWhitespace).reverse.dropWhile pyWhitespace).reverse)

/-- Decode a Python list[str] check: some when the value is a list with all
string items. -/
def asStringList : Json → Option (List String)
  | Json.arr l =>
    if l.all Json.isStr then
      some (l.filterMap (fun x => match x with | Json.str s => some s | _ => none))
    else none
  | _ => none

/-- The hard-coded CANCEL choice action of the no-ticker clarification. -/
def cancel_action : Json :=
  Json.obj
    [("type", Json.str "CANCEL"), ("ticker", Json.null), ("event_type", Json.null),
     ("field", Json.null), ("answer_text", Json.null), ("seed_payload", Json.null)]

/-- The hard-coded SHOW_DRAFT choice action of the no-ticker clarification. -/
def show_draft_action : Json :=
  Json.obj
    [("type", Json.str "SHOW_DRAFT"), ("ticker", Json.null), ("event_type", Json.null),
     ("field", Json.null), ("answer_text", Json.null), ("seed_payload", Json.null)]

/-- The fixed clarification llm_interpret returns when no explicit uppercase
ticker survives the filter (lines 402-435); confidence 0.6 is the normalized
fraction 3/5 so the kernel can evaluate it. -/
def no_ticker_clarify : Json :=
  Json.obj
    [("mode", Json.str "CLARIFY"), ("confidence", Json.float ⟨3, 5, by decide, by decide⟩),
     ("action", Json.null),
     ("clarify", Json.obj
       [("question", Json.str "Enter an uppercase ticker (e.g., AAPL). Company names are not supported."),
        ("choices", Json.arr
          [Json.obj [("label", Json.str "OK"), ("action", cancel_action)],
           Json.obj [("label", Json.str "Show commands"), ("action", show_draft_action)]])]),
     ("message", Json.null)]

/-- Outcome of the request handling that precedes the oracle call: an HTTP
400, an early response that never consults the oracle, or the gating context
(filtered tickers, pending field, answerable fields) the oracle's output
will be gated against. -/
inductive PreOutcome where
  | badRequest : String → PreOutcome
  | respond : Json → PreOutcome
  | proceed : List String → Option String → Option (List String) → PreOutcome

/-- draft.get("pending_field") normalization (lines 441-443). -/
def draft_pending (draft : Json) : Option String :=
  match draft.getD "pending_field" with
  | Json.str s => some s
  | _ => none

/-- draft.get("missing_fields") normalization (lines 445-448). -/
def draft_missing (draft : Json) : Option (List String) :=
  match draft.getD "missing_fields" with
  | Json.null => none
  | v => asStringList v

/-- llm_interpret before the oracle call (lines 385-448): body check, text
extraction, allowed-ticker resolution and filtering, the no-ticker early
return, and draft-context normalization. -/
def llm_interpret_pre (body : Json) : PreOutcome :=
  if ¬ body.isObj then PreOutcome.badRequest "Body must be a JSON object"
  else
    let text := pyStrip (pyStr ((body.find "text").getD (Json.str "")))
    if text = "" then PreOutcome.respond default_noop
    else
      let atsOpt : Option (List String) :=
        match body.getD "allowed_tickers" with
        | Json.null => some (extract_allowed_tickers text)
        | v => asStringList v
      match atsOpt with
      | none => PreOutcome.badRequest "allowed_tickers must be array of strings"
      | some ats0 =>
        let ats := ats0.filter ticker_token_match
        if ats.isEmpty then PreOutcome.respond no_ticker_clarify
        else
          let d0 := body.getD "draft"
          let d1 := if d0.isTruthy then d0 else Json.obj []
          let draft := if d1.isObj then d1 else Json.obj []
          PreOutcome.proceed ats (draft_pending draft) (draft_missing draft)

/-- The whole llm_interpret endpoint, the oracle output passed as a value:
pre-processing either answers by itself (no oracle involved) or hands the
filtered context to the gate. -/
def llm_interpret_full (body oracle : Json) : Except String Json :=
  match llm_interpret_pre body with
  | PreOutcome.badRequest m => Except.error m
  | PreOutcome.respond r => Except.ok r
  | PreOutcome.proceed ats pf aaf => gate_out oracle ats pf aaf

-- ---------------------------------------------------------------------
-- Supporting lemmas
-- ---------------------------------------------------------------------

theorem except_bind_ok_iff {ε α β : Type} (x : Except ε α) (f : α → Except ε β) (b : β) :
    (x >>= f) = Except.ok b ↔ ∃ a, x = Except.ok a ∧ f a = Except.ok b := by
  cases x <;> simp [Bind.bind, Except.bind]

theorem lookupJ_append_some {l1 l2 : List (String × Json)} {k : String} {v : Json}
    (h : lookupJ l1 k = some v) : lookupJ (l1 ++ l2) k = some v := by
  induction l1 with
  | nil => simp [lookupJ] at h
  | cons p rest ih =>
    obtain ⟨k1, v1⟩ := p
    by_cases hk : k1 = k
    · simp [lookupJ, hk] at h ⊢; exact h
    · simp [lookupJ, hk] at h ⊢; exact ih h

theorem lookupJ_append_none {l1 : List (String × Json)} {k : String}
    (h : lookupJ l1 k = none) (l2 : List (String × Json)) :
    lookupJ (l1 ++ l2) k = lookupJ l2 k := by
  induction l1 with
  | nil => simp [lookupJ]
  | cons p rest ih =>
    obtain ⟨k1, v1⟩ := p
    by_cases hk : k1 = k
    · simp [lookupJ, hk] at h
    · simp [lookupJ, hk] at h ⊢; exact ih h

theorem lookupJ_setKey_self (kvs : List (String × Json)) (k : String) (v : Json) :
    lookupJ (setKey kvs k v) k = some v := by
  induction kvs with
  | nil => simp [setKey, lookupJ]
  | cons p rest ih =>
    obtain ⟨k1, v1⟩ := p
    by_cases hk : k1 = k
    · simp [setKey, hk, lookupJ]
    · simp [setKey, hk, lookupJ, ih]

theorem lookupJ_setKey_ne (kvs : List (String × Json)) (k : String) (v : Json)
    {k' : String} (h : k' ≠ k) : lookupJ (setKey kvs k v) k' = lookupJ kvs k' := by
  induction kvs with
  | nil =>
    have hne : ¬ (k = k') := fun hk => h hk.symm
    simp [setKey, lookupJ, hne]
  | cons p rest ih =>
    obtain ⟨k1, v1⟩ := p
    by_cases hk : k1 = k
    · subst hk
      have hne : ¬ (k1 = k') := fun hh => h hh.symm
      simp [setKey, lookupJ, hne]
    · by_cases hk' : k1 = k'
      · simp [setKey, hk, lookupJ, hk', h]
      · simp [setKey, hk, lookupJ, hk', ih]

theorem deep_merge_null (base : Json) : deep_merge_replace_lists base Json.null = base := by
  simp [deep_merge_replace_lists]

theorem deep_merge_obj_obj (bkvs pkvs : List (String × Json)) :
    deep_merge_replace_lists (Json.obj bkvs) (Json.obj pkvs) =
      Json.obj (deep_merge_into bkvs pkvs) := by
  simp [deep_merge_replace_lists]

theorem deep_merge_into_lookup_of_not_mem {pkvs : List (String × Json)} {k : String}
    (h : k ∉ pkvs.map Prod.fst) (out : List (String × Json)) :
    lookupJ (deep_merge_into out pkvs) k = lookupJ out k := by
  induction pkvs generalizing out with
  | nil => simp [deep_merge_into]
  | cons p rest ih =>
    obtain ⟨k2, v2⟩ := p
    have hk : k ≠ k2 := by
      intro hh; exact h (by simp [hh])
    have hrest : k ∉ rest.map Prod.fst := fun hh => h (by simp [hh])
    cases hb : lookupJ out k2 with
    | some bv =>
      rw [deep_merge_into, hb]
      rw [ih hrest, lookupJ_setKey_ne _ _ _ hk]
    | none =>
      rw [deep_merge_into, hb]
      rw [ih hrest]
      cases hk2 : lookupJ out k with
      | some v => exact lookupJ_append_some hk2
      | none =>
        rw [lookupJ_append_none hk2]
        have hne : ¬ (k2 = k) := fun hh => hk hh.symm
        simp [lookupJ, hne]

theorem deep_merge_into_preserves {pkvs : List (String × Json)} {k : String}
    (hnd : (pkvs.map Prod.fst).Nodup) (hp : lookupJ pkvs k = some Json.null)
    {out : List (String × Json)} {bv : Json} (hb : lookupJ out k = some bv) :
    lookupJ (deep_merge_into out pkvs) k = some bv := by
  induction pkvs generalizing out with
  | nil => simp [lookupJ] at hp
  | cons p rest ih =>
    obtain ⟨k2, v2⟩ := p
    rw [List.map_cons, List.nodup_cons] at hnd
    obtain ⟨hnotin, hnd'⟩ := hnd
    by_cases hk : k2 = k
    · subst hk
      simp [lookupJ] at hp
      subst hp
      have hnotin2 : k2 ∉ rest.map Prod.fst := hnotin
      rw [deep_merge_into, hb]
      show lookupJ (deep_merge_into (setKey out k2 (deep_merge_replace_lists bv Json.null)) rest) k2 = some bv
      rw [deep_merge_null]
      rw [deep_merge_into_lookup_of_not_mem hnotin2]
      exact lookupJ_setKey_self out k2 bv
    · have hp' : lookupJ rest k = some Json.null := by
        simpa [lookupJ, hk] using hp
      cases hb2 : lookupJ out k2 with
      | some bv2 =>
        rw [deep_merge_into, hb2]
        exact ih hnd' hp' (by rw [lookupJ_setKey_ne _ _ _ (fun hh => hk hh.symm)]; exact hb)
      | none =>
        rw [deep_merge_into, hb2]
        exact ih hnd' hp' (lookupJ_append_some hb)

theorem deep_merge_into_adds_null {pkvs : List (String × Json)} {k : String}
    (hnd : (pkvs.map Prod.fst).Nodup) (hp : lookupJ pkvs k = some Json.null)
    {out : List (String × Json)} (hb : lookupJ out k = none) :
    lookupJ (deep_merge_into out pkvs) k = some Json.null := by
  induction pkvs generalizing out with
  | nil => simp [lookupJ] at hp
  | cons p rest ih =>
    obtain ⟨k2, v2⟩ := p
    rw [List.map_cons, List.nodup_cons] at hnd
    obtain ⟨hnotin, hnd'⟩ := hnd
    by_cases hk : k2 = k
    · subst hk
      simp [lookupJ] at hp
      subst hp
      have hnotin2 : k2 ∉ rest.map Prod.fst := hnotin
      rw [deep_merge_into, hb]
      show lookupJ (deep_merge_into (out ++ [(k2, Json.null)]) rest) k2 = some Json.null
      rw [deep_merge_into_lookup_of_not_mem hnotin2]
      rw [lookupJ_append_none hb]
      simp [lookupJ]
    · have hp' : lookupJ rest k = some Json.null := by
        simpa [lookupJ, hk] using hp
      cases hb2 : lookupJ out k2 with
      | some bv2 =>
        rw [deep_merge_into, hb2]
        exact ih hnd' hp' (by rw [lookupJ_setKey_ne _ _ _ (fun hh => hk hh.symm)]; exact hb)
      | none =>
        rw [deep_merge_into, hb2]
        refine ih hnd' hp' ?_
        rw [lookupJ_append_none hb]
        have hne : ¬ (k2 = k) := hk
        simp [lookupJ, hne]

-- ---------------------------------------------------------------------
-- C5: null patch values in the deep merge
-- ---------------------------------------------------------------------

/-- C5 (amended): a null patch value never replaces an existing value — the
"no patch" rule of deep_merge_replace_lists applies at every level, not only
at the top level.  A null top-level patch returns the base unchanged; a null
patch value at a key present in the base leaves the base value in place; a
null patch value at a key absent from the base is inserted as null. -/
theorem deep_merge_null_keeps_base :
    ∀ (base : Json) (bkvs pkvs : List (String × Json)) (k : String) (bv : Json),
      deep_merge_replace_lists base Json.null = base ∧
      ((pkvs.map Prod.fst).Nodup → lookupJ pkvs k = some Json.null →
        (lookupJ bkvs k = some bv →
          (deep_merge_replace_lists (Json.obj bkvs) (Json.obj pkvs)).find k = some bv) ∧
        (lookupJ bkvs k = none →
          (deep_merge_replace_lists (Json.obj bkvs) (Json.obj pkvs)).find k = some Json.null)) := by
  intro base bkvs pkvs k bv
  refine ⟨deep_merge_null base, fun hnd hp => ⟨fun hb => ?_, fun hb => ?_⟩⟩
  · rw [deep_merge_obj_obj, Json.find]
    exact deep_merge_into_preserves hnd hp hb
  · rw [deep_merge_obj_obj, Json.find]
    exact deep_merge_into_adds_null hnd hp hb

/-- C5 counterexample: deep-merging the patch object mapping key a to null
into a base where a holds 1 keeps the 1 — the null patch value is not a
replacement, refuting the claim that the merged result maps the key to null. -/
theorem deep_merge_null_replacement_cex :
    deep_merge_replace_lists (Json.obj [("a", Json.int 1)]) (Json.obj [("a", Json.null)]) =
      Json.obj [("a", Json.int 1)] ∧
    ¬ (deep_merge_replace_lists (Json.obj [("a", Json.int 1)]) (Json.obj [("a", Json.null)]) =
      Json.obj [("a", Json.null)]) := by
  constructor
  · simp [deep_merge_replace_lists, deep_merge_into, lookupJ, setKey]
  · simp [deep_merge_replace_lists, deep_merge_into, lookupJ, setKey]

/-- C5 witness: the amended theorem applied at a two-key base and a singleton
null patch. -/
theorem deep_merge_null_keeps_base_witness :
    (deep_merge_replace_lists (Json.obj [("a", Json.int 1), ("b", Json.int 2)])
        (Json.obj [("a", Json.null)])).find "a" = some (Json.int 1) :=
  ((deep_merge_null_keeps_base Json.null [("a", Json.int 1), ("b", Json.int 2)]
      [("a", Json.null)] "a" (Json.int 1)).2 (by decide) rfl).1 rfl

-- ---------------------------------------------------------------------
-- C6: the completeness calculator
-- ---------------------------------------------------------------------

/-- The per-field missing test of compute_missing_fields as one boolean. -/
def field_missingB (payload : Json) (k : String) : Bool :=
  match payload.find k with
  | none => true
  | some Json.null => true
  | some v => isBlankStrJ v || isEmptyArrJ v || (decide (k ∈ dict_typed_keys) && !v.isObj)

theorem compute_missing_go_eq_filter (payload : Json) (l : List String) :
    compute_missing_go payload l = l.filter (fun k => field_missingB payload k) := by
  induction l with
  | nil => rfl
  | cons k rest ih =>
    cases hf : payload.find k with
    | none => simp [compute_missing_go, List.filter, field_missingB, hf, ih]
    | some v =>
      rcases v with _ | b | n | q | s | l2 | kvs
      · simp [compute_missing_go, List.filter, field_missingB, hf, ih]
      · by_cases hk : k ∈ dict_typed_keys <;>
          simp [compute_missing_go, List.filter, field_missingB, hf, ih, isBlankStrJ,
            isEmptyArrJ, Json.isObj, hk]
      · by_cases hk : k ∈ dict_typed_keys <;>
          simp [compute_missing_go, List.filter, field_missingB, hf, ih, isBlankStrJ,
            isEmptyArrJ, Json.isObj, hk]
      · by_cases hk : k ∈ dict_typed_keys <;>
          simp [compute_missing_go, List.filter, field_missingB, hf, ih, isBlankStrJ,
            isEmptyArrJ, Json.isObj, hk]
      · by_cases hb : pyBlank s <;> by_cases hk : k ∈ dict_typed_keys <;>
          simp [compute_missing_go, List.filter, field_missingB, hf, ih, isBlankStrJ,
            isEmptyArrJ, Json.isObj, hb, hk]
      · by_cases he : l2.isEmpty <;> by_cases hk : k ∈ dict_typed_keys <;>
          simp [compute_missing_go, List.filter, field_missingB, hf, ih, isBlankStrJ,
            isEmptyArrJ, Json.isObj, he, hk]
      · simp [compute_missing_go, List.filter, field_missingB, hf, ih, isBlankStrJ,
          isEmptyArrJ, Json.isObj]

theorem field_missingB_iff (payload : Json) (k : String) :
    field_missingB payload k = true ↔
      (payload.find k = none ∨
       payload.find k = some Json.null ∨
       (∃ s, payload.find k = some (Json.str s) ∧ pyBlank s = true) ∨
       payload.find k = some (Json.arr []) ∨
       (k ∈ dict_typed_keys ∧ ∃ v, payload.find k = some v ∧ v.isObj = false)) := by
  cases hf : payload.find k with
  | none => simp [field_missingB, hf]
  | some v =>
    rcases v with _ | b | n | q | s | l2 | kvs <;>
      simp [field_missingB, hf, isBlankStrJ, isEmptyArrJ, Json.isObj]

theorem compute_missing_go_congr {p q : Json} (h : ∀ k, p.find k = q.find k)
    (l : List String) : compute_missing_go p l = compute_missing_go q l := by
  rw [compute_missing_go_eq_filter, compute_missing_go_eq_filter]
  apply List.filter_congr
  intro k _
  simp only [field_missingB, h k]

/-- C6: for every event type, compute_missing_fields returns exactly the
required fields whose key is absent, or whose value is null, a
whitespace-only string, or an empty list, plus — for the dict-typed fields
drivers_delta / risks_delta / triggers_delta / constraints — those present
but not an object; the output is a sublist of the declared required order
(hence in declared order), and depends only on the payload's key-to-value
map, not on its key order. -/
theorem compute_missing_fields_spec :
    ∀ (et : String) (payload : Json),
      (compute_missing_fields et payload).Sublist (required_by_type et) ∧
      (∀ k, k ∈ compute_missing_fields et payload ↔
        (k ∈ required_by_type et ∧
          (payload.find k = none ∨
           payload.find k = some Json.null ∨
           (∃ s, payload.find k = some (Json.str s) ∧ pyBlank s = true) ∨
           payload.find k = some (Json.arr []) ∨
           (k ∈ dict_typed_keys ∧ ∃ v, payload.find k = some v ∧ v.isObj = false)))) ∧
      (∀ q : Json, (∀ k, payload.find k = q.find k) →
        compute_missing_fields et payload = compute_missing_fields et q) := by
  intro et payload
  refine ⟨?_, ?_, ?_⟩
  · rw [compute_missing_fields, compute_missing_go_eq_filter]
    exact List.filter_sublist _
  · intro k
    rw [compute_missing_fields, compute_missing_go_eq_filter, List.mem_filter,
      field_missingB_iff]
  · intro q h
    rw [compute_missing_fields, compute_missing_fields]
    exact compute_missing_go_congr h _

def w6p : Json := Json.obj [("severity", Json.null), ("note", Json.str "x")]

def w6q : Json := Json.obj [("note", Json.str "x"), ("severity", Json.null)]

/-- C6 witness: the characterization applied to a RISK_NOTE payload and the
same payload with its keys permuted; severity (null) is missing, and the key
order does not matter. -/
theorem compute_missing_fields_spec_witness :
    ("severity" ∈ compute_missing_fields "RISK_NOTE" w6p ↔
      ("severity" ∈ required_by_type "RISK_NOTE" ∧
        (w6p.find "severity" = none ∨
         w6p.find "severity" = some Json.null ∨
         (∃ s, w6p.find "severity" = some (Json.str s) ∧ pyBlank s = true) ∨
         w6p.find "severity" = some (Json.arr []) ∨
         ("severity" ∈ dict_typed_keys ∧
          ∃ v, w6p.find "severity" = some v ∧ v.isObj = false)))) ∧
    compute_missing_fields "RISK_NOTE" w6p = compute_missing_fields "RISK_NOTE" w6q := by
  constructor
  · exact (compute_missing_fields_spec "RISK_NOTE" w6p).2.1 "severity"
  · refine (compute_missing_fields_spec "RISK_NOTE" w6p).2.2 w6q ?_
    intro k
    simp only [w6p, w6q, Json.find, lookupJ]
    by_cases h1 : "severity" = k <;> by_cases h2 : "note" = k
    · exact absurd (h1.trans h2.symm) (by decide)
    · simp [h1, h2]
    · simp [h1, h2]
    · simp [h1, h2]

-- ---------------------------------------------------------------------
-- C1: finalize = missing-fields gate, then full validation
-- ---------------------------------------------------------------------

/-- C1 (amended): for a DRAFT event, an empty compute_missing_fields result
is necessary for finalize to succeed — any missing field fails with
MissingFields before schema validation runs and mutates nothing — and
passing full schema validation is sufficient only jointly with the empty
missing-fields result: finalize succeeds exactly when the missing list is
empty and validation passes, and then flips the status to FINAL. -/
theorem finalize_missing_then_validation :
    ∀ de : DecisionEvent, de.status = STATUS_DRAFT →
      ((compute_missing_fields de.event_type (jsonOrEmptyObj de.payload) ≠ [] →
        finalize_event de =
          Except.error (LifecycleErr.missingFields
            (compute_missing_fields de.event_type (jsonOrEmptyObj de.payload))) ∧
        apply_finalize de = de) ∧
       (compute_missing_fields de.event_type (jsonOrEmptyObj de.payload) = [] →
        validate_payload de.event_type (jsonOrEmptyObj de.payload) = Except.ok () →
        finalize_event de = Except.ok { de with status := STATUS_FINAL }) ∧
       (except_ok (finalize_event de) = true ↔
        (compute_missing_fields de.event_type (jsonOrEmptyObj de.payload) = [] ∧
         validate_payload de.event_type (jsonOrEmptyObj de.payload) = Except.ok ()))) := by
  intro de h
  refine ⟨?_, ?_, ?_⟩
  · intro hne
    cases hm : compute_missing_fields de.event_type (jsonOrEmptyObj de.payload) with
    | nil => exact absurd hm hne
    | cons m rest =>
      constructor
      · simp [finalize_event, h, hm]
      · simp [apply_finalize, finalize_event, h, hm]
  · intro hm hv
    simp [finalize_event, h, hm, hv]
  · cases hm : compute_missing_fields de.event_type (jsonOrEmptyObj de.payload) with
    | cons m rest => simp [finalize_event, h, hm, except_ok]
    | nil =>
      cases hv : validate_payload de.event_type (jsonOrEmptyObj de.payload) with
      | error e => simp [finalize_event, h, hm, hv, except_ok]
      | ok u => cases u; simp [finalize_event, h, hm, hv, except_ok]

def c1cex_payload : Json :=
  Json.obj [("risk_type", Json.str "DRAWDOWN"), ("severity", Json.str "LOW"),
    ("note", Json.str "watch"), ("action", Json.str "MONITOR"), ("due_by", Json.null)]

def c1cex_event : DecisionEvent := ⟨"RISK_NOTE", c1cex_payload, "DRAFT"⟩

/-- C1 counterexample: a DRAFT RISK_NOTE whose payload passes the full
schema validation (due_by may be null there) but whose finalize fails with
MissingFields, because the completeness calculator counts the null due_by as
missing — schema validation alone is not sufficient for finalize. -/
theorem finalize_validation_not_sufficient_cex :
    validate_payload "RISK_NOTE" c1cex_payload = Except.ok () ∧
    finalize_event c1cex_event = Except.error (LifecycleErr.missingFields ["due_by"]) :=
  ⟨rfl, rfl⟩

def c1wit_payload : Json :=
  Json.obj [("direction", Json.str "LONG"), ("horizon_days", Json.int 30),
    ("entry_thesis", Json.str "x"), ("key_drivers", Json.arr [Json.str "a"]),
    ("key_risks", Json.arr [Json.str "b"]),
    ("invalidation_triggers", Json.arr [Json.str "c"]),
    ("conviction", Json.int 60),
    ("position_intent_pct", Json.float ⟨5, 2, by decide, by decide⟩)]

def c1wit_event : DecisionEvent := ⟨"INITIATE", c1wit_payload, "DRAFT"⟩

/-- C1 witness: the INITIATE finalize-success scenario, via the amended
theorem. -/
theorem finalize_missing_then_validation_witness :
    finalize_event c1wit_event = Except.ok ⟨"INITIATE", c1wit_payload, STATUS_FINAL⟩ :=
  (finalize_missing_then_validation c1wit_event rfl).2.1 rfl rfl

-- ---------------------------------------------------------------------
-- C2: FINAL is terminal
-- ---------------------------------------------------------------------

/-- C2: a FINAL event is terminal: patch and finalize both leave the stored
event untouched and raise, a well-formed patch body fails precisely with
ConflictNotDraft, and any successful patch or finalize must have started
from a DRAFT — a successful patch stays DRAFT, a successful finalize flips
exactly the status to FINAL with the payload unchanged, so nothing ever
mutates a FINAL payload or moves an event back to DRAFT. -/
theorem final_is_terminal :
    ∀ (de : DecisionEvent) (body : Json),
      (de.status = STATUS_FINAL →
        apply_patch de body = de ∧
        apply_finalize de = de ∧
        except_ok (patch_draft_event de body) = false ∧
        finalize_event de = Except.error LifecycleErr.conflictNotDraft ∧
        (body.isObj = true → (body.getD "payload_patch").isObj = true →
          patch_draft_event de body = Except.error LifecycleErr.conflictNotDraft)) ∧
      (∀ r, patch_draft_event de body = Except.ok r →
        de.status = STATUS_DRAFT ∧ r.status = STATUS_DRAFT) ∧
      (∀ r, finalize_event de = Except.ok r →
        de.status = STATUS_DRAFT ∧ r.status = STATUS_FINAL ∧ r.payload = de.payload) := by
  intro de body
  refine ⟨?_, ?_, ?_⟩
  · intro h
    have hne : de.status ≠ STATUS_DRAFT := by rw [h]; decide
    refine ⟨?_, ?_, ?_, ?_, ?_⟩
    · by_cases h1 : body.isObj <;> by_cases h2 : (body.getD "payload_patch").isObj <;>
        simp [apply_patch, patch_draft_event, h1, h2, hne]
    · simp [apply_finalize, finalize_event, hne]
    · by_cases h1 : body.isObj <;> by_cases h2 : (body.getD "payload_patch").isObj <;>
        simp [patch_draft_event, h1, h2, hne, except_ok]
    · simp [finalize_event, hne]
    · intro h1 h2
      simp [patch_draft_event, h1, h2, hne]
  · intro r hr
    simp only [patch_draft_event] at hr
    split_ifs at hr with h1 h2 h3
    have hd : de.status = STATUS_DRAFT := not_not.mp h3
    refine ⟨hd, ?_⟩
    obtain rfl := Except.ok.inj hr
    exact hd
  · intro r hr
    simp only [finalize_event] at hr
    split_ifs at hr with h1
    have hd : de.status = STATUS_DRAFT := not_not.mp h1
    refine ⟨hd, ?_⟩
    cases hm : compute_missing_fields de.event_type (jsonOrEmptyObj de.payload) with
    | cons m rest => rw [hm] at hr; exact absurd hr (by simp)
    | nil =>
      rw [hm] at hr
      cases hv : validate_payload de.event_type (jsonOrEmptyObj de.payload) with
      | error e => rw [hv] at hr; exact absurd hr (by simp)
      | ok u =>
        rw [hv] at hr
        obtain rfl := Except.ok.inj hr
        exact ⟨rfl, rfl⟩

def c2wit_event : DecisionEvent := ⟨"RISK_NOTE", c1wit_payload, "FINAL"⟩

def c2wit_body : Json :=
  Json.obj [("payload_patch", Json.obj [("note", Json.str "x")])]

/-- C2 witness: the terminality theorem applied to a concrete FINAL event
and a well-formed patch body. -/
theorem final_is_terminal_witness :
    apply_patch c2wit_event c2wit_body = c2wit_event ∧
    apply_finalize c2wit_event = c2wit_event ∧
    patch_draft_event c2wit_event c2wit_body = Except.error LifecycleErr.conflictNotDraft ∧
    finalize_event c2wit_event = Except.error LifecycleErr.conflictNotDraft := by
  obtain ⟨ha, hb, hc, hd, he⟩ := (final_is_terminal c2wit_event c2wit_body).1 rfl
  exact ⟨ha, hb, he rfl rfl, hd⟩

-- ---------------------------------------------------------------------
-- C7: the two-tier delta check of THESIS_UPDATE
-- ---------------------------------------------------------------------

theorem except_ok_bind {ε α β : Type} (a : α) (f : α → Except ε β) :
    (Except.ok a >>= f) = f a := rfl

theorem except_error_bind {ε α β : Type} (e : ε) (f : α → Except ε β) :
    ((Except.error e : Except ε α) >>= f) = Except.error e := rfl

/-- C7 (amended): for every THESIS_UPDATE payload in which a delta field is
present as an object that fails the finalize-time add/remove check,
compute_missing_fields does not report the field (an object is never
missing), and validation of the payload never succeeds; when the checks
that precede the delta loop pass (required keys present, what_changed a
valid enum value, update_summary a non-empty string) and the other delta
fields pass their checks, the ValidationError is exactly the one naming the
offending delta field.  (The unamended claim also asserted the error always
names the field; the counterexample shows an earlier field can be named
instead.) -/
theorem thesis_delta_two_tier :
    ∀ (payload : Json) (kvs : List (String × Json)) (e : String) (dk : String),
      dk ∈ THESIS_DELTA_KEYS →
      payload.find dk = some (Json.obj kvs) →
      check_delta payload dk = Except.error e →
      (dk ∉ compute_missing_fields "THESIS_UPDATE" payload ∧
       validate_payload "THESIS_UPDATE" payload ≠ Except.ok () ∧
       (require_keys payload THESIS_UPDATE_REQUIRED "THESIS_UPDATE" = Except.ok () →
        require_enum (payload.getD "what_changed") THESIS_UPDATE_WHAT_CHANGED
          "THESIS_UPDATE.what_changed" = Except.ok () →
        require_str (payload.getD "update_summary") "THESIS_UPDATE.update_summary" false =
          Except.ok () →
        (∀ dk2, dk2 ∈ THESIS_DELTA_KEYS → dk2 ≠ dk →
          check_delta payload dk2 = Except.ok ()) →
        validate_payload "THESIS_UPDATE" payload = Except.error e)) := by
  intro payload kvs e dk hdk hfind hcd
  have hval : validate_payload "THESIS_UPDATE" payload = validate_thesis_update payload := rfl
  refine ⟨?_, ?_, ?_⟩
  · intro hmem
    rw [compute_missing_fields, compute_missing_go_eq_filter, List.mem_filter] at hmem
    have hcond := (field_missingB_iff payload dk).mp hmem.2
    rcases hcond with h | h | ⟨s, h, -⟩ | h | ⟨-, v, h, hobj⟩ <;> rw [hfind] at h
    · exact absurd h (by simp)
    · exact absurd h (by simp)
    · exact absurd h (by simp)
    · exact absurd h (by simp)
    · obtain rfl := Option.some.inj h
      exact absurd hobj (by simp [Json.isObj])
  · intro hok
    rw [hval] at hok
    simp only [validate_thesis_update] at hok
    rw [except_bind_ok_iff] at hok; obtain ⟨u1, hk1, hok⟩ := hok
    rw [except_bind_ok_iff] at hok; obtain ⟨u2, hk2, hok⟩ := hok
    rw [except_bind_ok_iff] at hok; obtain ⟨u3, hk3, hok⟩ := hok
    rw [except_bind_ok_iff] at hok; obtain ⟨u4, hk4, hok⟩ := hok
    rw [except_bind_ok_iff] at hok; obtain ⟨u5, hk5, hok⟩ := hok
    rw [except_bind_ok_iff] at hok; obtain ⟨u6, hk6, hok⟩ := hok
    simp only [THESIS_DELTA_KEYS, List.mem_cons, List.mem_singleton,
      List.not_mem_nil, or_false] at hdk
    rcases hdk with rfl | rfl | rfl
    · rw [hcd] at hk4; exact absurd hk4 (by simp)
    · rw [hcd] at hk5; exact absurd hk5 (by simp)
    · rw [hcd] at hk6; exact absurd hk6 (by simp)
  · intro hk1 hk2 hk3 hothers
    rw [hval]
    simp only [validate_thesis_update]
    rw [hk1, except_ok_bind, hk2, except_ok_bind, hk3, except_ok_bind]
    simp only [THESIS_DELTA_KEYS, List.mem_cons, List.mem_singleton,
      List.not_mem_nil, or_false] at hdk
    rcases hdk with rfl | rfl | rfl
    · rw [hcd, except_error_bind]
    · rw [hothers "drivers_delta" (by simp [THESIS_DELTA_KEYS]) (by decide),
        except_ok_bind, hcd, except_error_bind]
    · rw [hothers "drivers_delta" (by simp [THESIS_DELTA_KEYS]) (by decide),
        except_ok_bind, hothers "risks_delta" (by simp [THESIS_DELTA_KEYS]) (by decide),
        except_ok_bind, hcd, except_error_bind]

def c7cex_payload : Json :=
  Json.obj [("what_changed", Json.int 5), ("update_summary", Json.str "x"),
    ("drivers_delta", Json.obj []),
    ("risks_delta", Json.obj [("add", Json.arr []), ("remove", Json.arr [])]),
    ("triggers_delta", Json.obj [("add", Json.arr []), ("remove", Json.arr [])]),
    ("conviction_delta", Json.int 0),
    ("confidence", Json.float ⟨1, 2, by decide, by decide⟩)]

/-- C7 counterexample: drivers_delta is present as an object lacking
add/remove, is not reported missing, and validation does fail — but with an
error naming what_changed, not drivers_delta, because the enum check runs
first; the claim's "fails with a ValidationError naming that field" does not
hold for every such payload. -/
theorem thesis_delta_names_field_cex :
    "drivers_delta" ∉ compute_missing_fields "THESIS_UPDATE" c7cex_payload ∧
    c7cex_payload.find "drivers_delta" = some (Json.obj []) ∧
    validate_payload "THESIS_UPDATE" c7cex_payload =
      Except.error "THESIS_UPDATE.what_changed invalid value" :=
  ⟨by decide, rfl, rfl⟩

def c7wit_payload : Json :=
  Json.obj [("what_changed", Json.str "MACRO"), ("update_summary", Json.str "x"),
    ("drivers_delta", Json.obj [("add", Json.arr []), ("remove", Json.arr [])]),
    ("risks_delta", Json.obj []),
    ("triggers_delta", Json.obj [("add", Json.arr []), ("remove", Json.arr [])]),
    ("conviction_delta", Json.int 0),
    ("confidence", Json.float ⟨1, 2, by decide, by decide⟩)]

/-- C7 witness: the amended theorem applied to a payload whose only flaw is
a risks_delta object lacking add/remove. -/
theorem thesis_delta_two_tier_witness :
    "risks_delta" ∉ compute_missing_fields "THESIS_UPDATE" c7wit_payload ∧
    validate_payload "THESIS_UPDATE" c7wit_payload ≠ Except.ok () ∧
    validate_payload "THESIS_UPDATE" c7wit_payload =
      Except.error "THESIS_UPDATE.risks_delta must be object with add/remove" := by
  obtain ⟨ha, hb, hc⟩ := thesis_delta_two_tier c7wit_payload []
    "THESIS_UPDATE.risks_delta must be object with add/remove" "risks_delta"
    (by decide) rfl rfl
  refine ⟨ha, hb, hc rfl rfl rfl ?_⟩
  intro dk2 h2 hne
  simp only [THESIS_DELTA_KEYS, List.mem_cons, List.mem_singleton,
    List.not_mem_nil, or_false] at h2
  rcases h2 with rfl | rfl | rfl
  · rfl
  · exact absurd rfl hne
  · rfl

-- ---------------------------------------------------------------------
-- Action-gate analysis
-- ---------------------------------------------------------------------

/-- A confidence field float() can cast without raising: a number, bool,
null, absent, or otherwise falsy (truthy strings and non-empty containers
can raise ValueError/TypeError). -/
def conf_field_benign : Json → Prop
  | Json.str s => s = ""
  | Json.arr l => l = []
  | Json.obj l => l = []
  | _ => True

/-- A message field the NOOP branch can slice: a string, a list, or a falsy
value. -/
def msg_field_benign : Json → Bool
  | Json.str _ => true
  | Json.arr _ => true
  | m => !m.isTruthy

/-- An action value whose in-place seed sanitization cannot raise. -/
def action_field_benign (a : Json) : Bool :=
  match a with
  | Json.obj _ => except_ok (sanitize_seed_payload (a.getD "event_type") (a.getD "seed_payload"))
  | _ => true

/-- An action value the gate can process without raising at all: for an
object, its event_type is hashable, so neither the seed-allowlist lookup nor
the event-type set membership hashes an array/object. -/
def action_field_safe (a : Json) : Bool :=
  match a with
  | Json.obj _ => isHashable (a.getD "event_type")
  | _ => true

/-- A clarify value all of whose choice actions the cleaning loop can
process without raising. -/
def clarify_field_benign (c : Json) : Bool :=
  match c with
  | Json.obj _ =>
    match c.getD "choices" with
    | Json.arr chs => chs.all (fun ch => action_field_safe (ch.getD "action"))
    | _ => true
  | _ => true

/-- A well-formed gate response: one of the three modes plus the four other
response keys. -/
def resp_well_formed (r : Json) : Bool :=
  (match r.getD "mode" with
   | Json.str m => decide (m = "EXECUTE" ∨ m = "CLARIFY" ∨ m = "NOOP")
   | _ => false) &&
  r.hasKey "confidence" && r.hasKey "action" && r.hasKey "clarify" && r.hasKey "message"

/-- The choice list carried by a response's clarify object. -/
def clarify_choices_of (r : Json) : List Json :=
  match (r.getD "clarify").getD "choices" with
  | Json.arr l => l
  | _ => []

theorem conf_of_benign {out : Json} (h : conf_field_benign (out.getD "confidence")) :
    ∃ q, conf_of out = some q := by
  cases hc : out.getD "confidence" with
  | null => exact ⟨0, by simp [conf_of, hc, Json.isTruthy]⟩
  | bool b =>
    cases b
    · exact ⟨0, by simp [conf_of, hc, Json.isTruthy]⟩
    · exact ⟨1, by simp [conf_of, hc, Json.isTruthy]⟩
  | int n =>
    by_cases hn : n = 0
    · exact ⟨0, by simp [conf_of, hc, Json.isTruthy, hn]⟩
    · exact ⟨(n : ℚ), by simp [conf_of, hc, Json.isTruthy, hn]⟩
  | float q =>
    by_cases hq : q = 0
    · exact ⟨0, by simp [conf_of, hc, Json.isTruthy, hq]⟩
    · exact ⟨q, by simp [conf_of, hc, Json.isTruthy, hq]⟩
  | str s =>
    rw [hc] at h
    have hs : s = "" := h
    subst hs
    exact ⟨0, by simp [conf_of, hc, Json.isTruthy]⟩
  | arr l =>
    rw [hc] at h
    have hl : l = [] := h
    subst hl
    exact ⟨0, by simp [conf_of, hc, Json.isTruthy]⟩
  | obj l =>
    rw [hc] at h
    have hl : l = [] := h
    subst hl
    exact ⟨0, by simp [conf_of, hc, Json.isTruthy]⟩

theorem except_ok_exists {ε α : Type} {x : Except ε α} (h : except_ok x = true) :
    ∃ a, x = Except.ok a := by
  cases x with
  | ok a => exact ⟨a, rfl⟩
  | error e => simp [except_ok] at h

theorem getD_setKey_ne (akvs : List (String × Json)) (k : String) (v : Json)
    {k2 : String} (h : k2 ≠ k) :
    (Json.obj (setKey akvs k v)).getD k2 = (Json.obj akvs).getD k2 := by
  simp only [Json.getD, Json.find]
  rw [lookupJ_setKey_ne akvs k v h]

theorem sanitize_ok_of_hashable {ev : Json} (seed : Json) (h : isHashable ev = true) :
    ∃ sp, sanitize_seed_payload ev seed = Except.ok sp := by
  cases seed with
  | obj kvs =>
    simp only [sanitize_seed_payload]
    split_ifs with h1 h2 h3
    · exact ⟨_, rfl⟩
    · exact ⟨_, rfl⟩
    · exact ⟨_, rfl⟩
    · exact ⟨_, rfl⟩
  | null => exact ⟨Json.null, rfl⟩
  | bool b => exact ⟨Json.null, rfl⟩
  | int n => exact ⟨Json.null, rfl⟩
  | float q => exact ⟨Json.null, rfl⟩
  | str s => exact ⟨Json.null, rfl⟩
  | arr l => exact ⟨Json.null, rfl⟩

theorem action_ok_error_inv {action : Json} {ats : List String} {pf : Option String}
    {aaf : Option (List String)} {e : String}
    (h : action_ok_against_allowlists action ats pf aaf = Except.error e) :
    isHashable (action.getD "event_type") = false := by
  simp only [action_ok_against_allowlists] at h
  split_ifs at h with h1 h2 h3
  exact h2

theorem action_ok_total (ats : List String) (pf : Option String)
    (aaf : Option (List String)) {action : Json}
    (h : isHashable (action.getD "event_type") = true) :
    ∃ b, action_ok_against_allowlists action ats pf aaf = Except.ok b := by
  cases hr : action_ok_against_allowlists action ats pf aaf with
  | ok b => exact ⟨b, rfl⟩
  | error e =>
    rw [action_ok_error_inv hr] at h
    simp at h

theorem gate_noop_branch_ok {out : Json} {conf : ℚ} {r : Json}
    (h : gate_noop_branch out conf = Except.ok r) :
    r.getD "mode" = Json.str "NOOP" ∧ r.getD "confidence" = Json.float conf ∧
    r.getD "action" = Json.null ∧ r.getD "clarify" = Json.null ∧
    resp_well_formed r = true := by
  simp only [gate_noop_branch] at h
  cases hval : (if (out.getD "message").isTruthy then out.getD "message"
      else Json.str DEFAULT_NOOP_MESSAGE) with
  | str s =>
    rw [hval] at h
    obtain rfl := Except.ok.inj h
    exact ⟨rfl, rfl, rfl, rfl, rfl⟩
  | arr l =>
    rw [hval] at h
    obtain rfl := Except.ok.inj h
    exact ⟨rfl, rfl, rfl, rfl, rfl⟩
  | null => rw [hval] at h; exact absurd h (by simp)
  | bool b => rw [hval] at h; exact absurd h (by simp)
  | int n => rw [hval] at h; exact absurd h (by simp)
  | float q => rw [hval] at h; exact absurd h (by simp)
  | obj kvs => rw [hval] at h; exact absurd h (by simp)

theorem gate_execute_branch_ok {out : Json} {conf : ℚ} {ats : List String}
    {pf : Option String} {aaf : Option (List String)} {r : Json}
    (h : gate_execute_branch out conf ats pf aaf = Except.ok r) :
    r = default_noop ∨
    (∃ akvs sp,
      out.getD "action" = Json.obj akvs ∧
      sanitize_seed_payload ((Json.obj akvs).getD "event_type")
        ((Json.obj akvs).getD "seed_payload") = Except.ok sp ∧
      action_ok_against_allowlists (Json.obj (setKey akvs "seed_payload" sp)) ats pf aaf =
        Except.ok true ∧
      r = Json.obj [("mode", Json.str "EXECUTE"), ("confidence", Json.float conf),
        ("action", Json.obj (setKey akvs "seed_payload" sp)),
        ("clarify", Json.null), ("message", Json.null)]) := by
  cases ha : out.getD "action" with
  | obj akvs =>
    simp only [gate_execute_branch, ha] at h
    cases hs : sanitize_seed_payload ((Json.obj akvs).getD "event_type")
        ((Json.obj akvs).getD "seed_payload") with
    | error e => rw [hs, except_error_bind] at h; exact absurd h (by simp)
    | ok sp =>
      rw [hs, except_ok_bind] at h
      cases hok : action_ok_against_allowlists
          (Json.obj (setKey akvs "seed_payload" sp)) ats pf aaf with
      | error e => rw [hok, except_error_bind] at h; exact absurd h (by simp)
      | ok b =>
        rw [hok, except_ok_bind] at h
        cases b with
        | true =>
          obtain rfl := Except.ok.inj h
          exact Or.inr ⟨akvs, sp, rfl, hs, hok, rfl⟩
        | false =>
          obtain rfl := Except.ok.inj h
          exact Or.inl rfl
  | null => simp only [gate_execute_branch, ha] at h; obtain rfl := Except.ok.inj h; exact Or.inl rfl
  | bool b => simp only [gate_execute_branch, ha] at h; obtain rfl := Except.ok.inj h; exact Or.inl rfl
  | int n => simp only [gate_execute_branch, ha] at h; obtain rfl := Except.ok.inj h; exact Or.inl rfl
  | float q => simp only [gate_execute_branch, ha] at h; obtain rfl := Except.ok.inj h; exact Or.inl rfl
  | str s => simp only [gate_execute_branch, ha] at h; obtain rfl := Except.ok.inj h; exact Or.inl rfl
  | arr l => simp only [gate_execute_branch, ha] at h; obtain rfl := Except.ok.inj h; exact Or.inl rfl

theorem clean_choice_some {ch : Json} {ats : List String} {pf : Option String}
    {aaf : Option (List String)} {c : Json}
    (h : clean_choice ch ats pf aaf = Except.ok (some c)) :
    ∃ label akvs,
      c = Json.obj [("label", Json.str label), ("action", Json.obj akvs)] ∧
      action_ok_against_allowlists (Json.obj akvs) ats pf aaf = Except.ok true := by
  cases ch with
  | obj ckvs =>
    cases hl : (Json.obj ckvs).getD "label" with
    | str label =>
      cases ha : (Json.obj ckvs).getD "action" with
      | obj akvs =>
        simp only [clean_choice, hl, ha] at h
        cases hs : sanitize_seed_payload ((Json.obj akvs).getD "event_type")
            ((Json.obj akvs).getD "seed_payload") with
        | error e => rw [hs, except_error_bind] at h; exact absurd h (by simp)
        | ok sp =>
          rw [hs, except_ok_bind] at h
          cases hok : action_ok_against_allowlists
              (Json.obj (setKey akvs "seed_payload" sp)) ats pf aaf with
          | error e => rw [hok, except_error_bind] at h; exact absurd h (by simp)
          | ok b =>
            rw [hok, except_ok_bind] at h
            cases b with
            | true =>
              obtain hco := Except.ok.inj h
              obtain rfl := Option.some.inj hco
              exact ⟨label.take 60, setKey akvs "seed_payload" sp, rfl, hok⟩
            | false =>
              exact absurd (Except.ok.inj h) (by simp)
      | null => simp [clean_choice, hl, ha] at h
      | bool b => simp [clean_choice, hl, ha] at h
      | int n => simp [clean_choice, hl, ha] at h
      | float q => simp [clean_choice, hl, ha] at h
      | str s2 => simp [clean_choice, hl, ha] at h
      | arr l2 => simp [clean_choice, hl, ha] at h
    | null => simp [clean_choice, hl] at h
    | bool b => simp [clean_choice, hl] at h
    | int n => simp [clean_choice, hl] at h
    | float q => simp [clean_choice, hl] at h
    | arr l2 => simp [clean_choice, hl] at h
    | obj kvs2 => simp [clean_choice, hl] at h
  | null => simp [clean_choice] at h
  | bool b => simp [clean_choice] at h
  | int n => simp [clean_choice] at h
  | float q => simp [clean_choice] at h
  | str s => simp [clean_choice] at h
  | arr l => simp [clean_choice] at h

theorem clean_choices_sound :
    ∀ (chs : List Json) {ats : List String} {pf : Option String}
      {aaf : Option (List String)} {cleaned : List Json},
      clean_choices chs ats pf aaf = Except.ok cleaned →
      ∀ c ∈ cleaned, ∃ label akvs,
        c = Json.obj [("label", Json.str label), ("action", Json.obj akvs)] ∧
        action_ok_against_allowlists (Json.obj akvs) ats pf aaf = Except.ok true := by
  intro chs
  induction chs with
  | nil =>
    intro ats pf aaf cleaned h c hc
    simp only [clean_choices] at h
    obtain rfl := Except.ok.inj h
    simp at hc
  | cons ch rest ih =>
    intro ats pf aaf cleaned h c hc
    simp only [clean_choices] at h
    rw [except_bind_ok_iff] at h
    obtain ⟨o, ho, h⟩ := h
    rw [except_bind_ok_iff] at h
    obtain ⟨tail, htail, h⟩ := h
    cases o with
    | none =>
      simp only [pure, Except.pure] at h
      obtain rfl := Except.ok.inj h
      exact ih htail c hc
    | some c0 =>
      simp only [pure, Except.pure] at h
      obtain rfl := Except.ok.inj h
      rcases List.mem_cons.mp hc with rfl | hmem
      · exact clean_choice_some ho
      · exact ih htail c hmem

theorem clean_choice_total (ats : List String) (pf : Option String)
    (aaf : Option (List String)) {ch : Json}
    (h : action_field_safe (ch.getD "action") = true) :
    ∃ o, clean_choice ch ats pf aaf = Except.ok o := by
  cases ch with
  | obj ckvs =>
    cases hl : (Json.obj ckvs).getD "label" with
    | str label =>
      cases ha : (Json.obj ckvs).getD "action" with
      | obj akvs =>
        rw [ha] at h
        simp only [action_field_safe] at h
        obtain ⟨sp, hs⟩ := sanitize_ok_of_hashable ((Json.obj akvs).getD "seed_payload") h
        have hev : isHashable
            ((Json.obj (setKey akvs "seed_payload" sp)).getD "event_type") = true := by
          rw [getD_setKey_ne akvs "seed_payload" sp (by decide)]; exact h
        obtain ⟨b, hok⟩ := action_ok_total ats pf aaf hev
        cases b with
        | true =>
          exact ⟨some (Json.obj [("label", Json.str (label.take 60)),
            ("action", Json.obj (setKey akvs "seed_payload" sp))]),
            by simp only [clean_choice, hl, ha]; rw [hs, except_ok_bind, hok, except_ok_bind]; rfl⟩
        | false =>
          exact ⟨none,
            by simp only [clean_choice, hl, ha]; rw [hs, except_ok_bind, hok, except_ok_bind]; rfl⟩
      | null => exact ⟨none, by simp [clean_choice, hl, ha]⟩
      | bool b => exact ⟨none, by simp [clean_choice, hl, ha]⟩
      | int n => exact ⟨none, by simp [clean_choice, hl, ha]⟩
      | float q => exact ⟨none, by simp [clean_choice, hl, ha]⟩
      | str s2 => exact ⟨none, by simp [clean_choice, hl, ha]⟩
      | arr l2 => exact ⟨none, by simp [clean_choice, hl, ha]⟩
    | null => exact ⟨none, by simp [clean_choice, hl]⟩
    | bool b => exact ⟨none, by simp [clean_choice, hl]⟩
    | int n => exact ⟨none, by simp [clean_choice, hl]⟩
    | float q => exact ⟨none, by simp [clean_choice, hl]⟩
    | arr l2 => exact ⟨none, by simp [clean_choice, hl]⟩
    | obj kvs2 => exact ⟨none, by simp [clean_choice, hl]⟩
  | null => exact ⟨none, rfl⟩
  | bool b => exact ⟨none, rfl⟩
  | int n => exact ⟨none, rfl⟩
  | float q => exact ⟨none, rfl⟩
  | str s => exact ⟨none, rfl⟩
  | arr l => exact ⟨none, rfl⟩

theorem clean_choices_total :
    ∀ (chs : List Json) {ats : List String} {pf : Option String}
      {aaf : Option (List String)},
      (∀ ch ∈ chs, action_field_safe (ch.getD "action") = true) →
      ∃ cleaned, clean_choices chs ats pf aaf = Except.ok cleaned := by
  intro chs
  induction chs with
  | nil => intro ats pf aaf _; exact ⟨[], rfl⟩
  | cons ch rest ih =>
    intro ats pf aaf h
    obtain ⟨o, ho⟩ := clean_choice_total ats pf aaf (h ch (List.mem_cons_self ch rest))
    obtain ⟨tail, htail⟩ := ih (fun ch2 h2 => h ch2 (List.mem_cons_of_mem ch h2))
    cases o with
    | none =>
      exact ⟨tail,
        by simp only [clean_choices]; rw [ho, except_ok_bind, htail, except_ok_bind]; rfl⟩
    | some c0 =>
      exact ⟨c0 :: tail,
        by simp only [clean_choices]; rw [ho, except_ok_bind, htail, except_ok_bind]; rfl⟩

theorem gate_clarify_branch_ok {out : Json} {conf : ℚ} {ats : List String}
    {pf : Option String} {aaf : Option (List String)} {r : Json}
    (h : gate_clarify_branch out conf ats pf aaf = Except.ok r) :
    r = default_noop ∨
    (r.getD "mode" = Json.str "CLARIFY" ∧ r.getD "confidence" = Json.float conf ∧
     r.getD "action" = Json.null ∧ resp_well_formed r = true ∧
     ∀ c ∈ clarify_choices_of r, ∃ label akvs,
       c = Json.obj [("label", Json.str label), ("action", Json.obj akvs)] ∧
       action_ok_against_allowlists (Json.obj akvs) ats pf aaf = Except.ok true) := by
  cases hc : out.getD "clarify" with
  | obj ckvs =>
    cases hq : (Json.obj ckvs).getD "question" with
    | str q =>
      cases hch : (Json.obj ckvs).getD "choices" with
      | arr choices =>
        simp only [gate_clarify_branch, hc, hq, hch] at h
        by_cases hlen : 2 ≤ choices.length ∧ choices.length ≤ 5
        · rw [if_neg (by simpa using hlen)] at h
          cases hcl : clean_choices choices ats pf aaf with
          | error e => rw [hcl, except_error_bind] at h; exact absurd h (by simp)
          | ok cleaned =>
            rw [hcl, except_ok_bind] at h
            by_cases hshort : cleaned.length < 2
            · rw [if_pos hshort] at h
              obtain rfl := Except.ok.inj h
              exact Or.inl rfl
            · rw [if_neg hshort] at h
              obtain rfl := Except.ok.inj h
              refine Or.inr ⟨rfl, rfl, rfl, rfl, ?_⟩
              intro c hcmem
              have hcmem2 : c ∈ cleaned := by
                have : clarify_choices_of (Json.obj
                    [("mode", Json.str "CLARIFY"), ("confidence", Json.float conf),
                     ("action", Json.null),
                     ("clarify", Json.obj
                       [("question", Json.str (q.take 200)),
                        ("choices", Json.arr (cleaned.take 5))]),
                     ("message", Json.null)]) = cleaned.take 5 := rfl
                rw [this] at hcmem
                exact List.mem_of_mem_take hcmem
              exact clean_choices_sound choices hcl c hcmem2
        · rw [if_pos (by simpa using hlen)] at h
          obtain rfl := Except.ok.inj h
          exact Or.inl rfl
      | null => simp [gate_clarify_branch, hc, hq, hch] at h; exact Or.inl h.symm
      | bool b => simp [gate_clarify_branch, hc, hq, hch] at h; exact Or.inl h.symm
      | int n => simp [gate_clarify_branch, hc, hq, hch] at h; exact Or.inl h.symm
      | float q2 => simp [gate_clarify_branch, hc, hq, hch] at h; exact Or.inl h.symm
      | str s2 => simp [gate_clarify_branch, hc, hq, hch] at h; exact Or.inl h.symm
      | obj kvs2 => simp [gate_clarify_branch, hc, hq, hch] at h; exact Or.inl h.symm
    | null => simp [gate_clarify_branch, hc, hq] at h; exact Or.inl h.symm
    | bool b => simp [gate_clarify_branch, hc, hq] at h; exact Or.inl h.symm
    | int n => simp [gate_clarify_branch, hc, hq] at h; exact Or.inl h.symm
    | float q2 => simp [gate_clarify_branch, hc, hq] at h; exact Or.inl h.symm
    | arr l2 => simp [gate_clarify_branch, hc, hq] at h; exact Or.inl h.symm
    | obj kvs2 => simp [gate_clarify_branch, hc, hq] at h; exact Or.inl h.symm
  | null => simp [gate_clarify_branch, hc] at h; exact Or.inl h.symm
  | bool b => simp [gate_clarify_branch, hc] at h; exact Or.inl h.symm
  | int n => simp [gate_clarify_branch, hc] at h; exact Or.inl h.symm
  | float q2 => simp [gate_clarify_branch, hc] at h; exact Or.inl h.symm
  | str s => simp [gate_clarify_branch, hc] at h; exact Or.inl h.symm
  | arr l => simp [gate_clarify_branch, hc] at h; exact Or.inl h.symm

theorem gate_noop_branch_total {out : Json} (conf : ℚ)
    (h : msg_field_benign (out.getD "message") = true) :
    ∃ r, gate_noop_branch out conf = Except.ok r := by
  cases hm : out.getD "message" with
  | str s =>
    cases htv : (Json.str s).isTruthy
    · exact ⟨_, by simp [gate_noop_branch, hm, htv]; rfl⟩
    · exact ⟨_, by simp [gate_noop_branch, hm, htv]; rfl⟩
  | arr l =>
    cases htv : (Json.arr l).isTruthy
    · exact ⟨_, by simp [gate_noop_branch, hm, htv]; rfl⟩
    · exact ⟨_, by simp [gate_noop_branch, hm, htv]; rfl⟩
  | null => exact ⟨_, by simp [gate_noop_branch, hm, Json.isTruthy]; rfl⟩
  | bool b =>
    rw [hm] at h
    have hb : b = false := by simpa [msg_field_benign, Json.isTruthy] using h
    subst hb
    exact ⟨_, by simp [gate_noop_branch, hm, Json.isTruthy]; rfl⟩
  | int n =>
    rw [hm] at h
    have hn : n = 0 := by simpa [msg_field_benign, Json.isTruthy] using h
    subst hn
    exact ⟨_, by simp [gate_noop_branch, hm, Json.isTruthy]; rfl⟩
  | float q =>
    rw [hm] at h
    have hq : q = 0 := by simpa [msg_field_benign, Json.isTruthy] using h
    subst hq
    exact ⟨_, by simp [gate_noop_branch, hm, Json.isTruthy]; rfl⟩
  | obj kvs =>
    rw [hm] at h
    have hl : kvs = [] := by simpa [msg_field_benign, Json.isTruthy] using h
    subst hl
    exact ⟨_, by simp [gate_noop_branch, hm, Json.isTruthy]; rfl⟩

theorem gate_execute_branch_total {out : Json} (conf : ℚ) (ats : List String)
    (pf : Option String) (aaf : Option (List String))
    (h : action_field_safe (out.getD "action") = true) :
    ∃ r, gate_execute_branch out conf ats pf aaf = Except.ok r := by
  cases ha : out.getD "action" with
  | obj akvs =>
    rw [ha] at h
    simp only [action_field_safe] at h
    obtain ⟨sp, hs⟩ := sanitize_ok_of_hashable ((Json.obj akvs).getD "seed_payload") h
    have hev : isHashable
        ((Json.obj (setKey akvs "seed_payload" sp)).getD "event_type") = true := by
      rw [getD_setKey_ne akvs "seed_payload" sp (by decide)]; exact h
    obtain ⟨b, hok⟩ := action_ok_total ats pf aaf hev
    cases b with
    | true =>
      refine ⟨Json.obj [("mode", Json.str "EXECUTE"), ("confidence", Json.float conf),
        ("action", Json.obj (setKey akvs "seed_payload" sp)),
        ("clarify", Json.null), ("message", Json.null)], ?_⟩
      simp only [gate_execute_branch, ha]
      rw [hs, except_ok_bind, hok, except_ok_bind]
      rfl
    | false =>
      refine ⟨default_noop, ?_⟩
      simp only [gate_execute_branch, ha]
      rw [hs, except_ok_bind, hok, except_ok_bind]
      rfl
  | null => exact ⟨default_noop, by simp [gate_execute_branch, ha]⟩
  | bool b => exact ⟨default_noop, by simp [gate_execute_branch, ha]⟩
  | int n => exact ⟨default_noop, by simp [gate_execute_branch, ha]⟩
  | float q => exact ⟨default_noop, by simp [gate_execute_branch, ha]⟩
  | str s => exact ⟨default_noop, by simp [gate_execute_branch, ha]⟩
  | arr l => exact ⟨default_noop, by simp [gate_execute_branch, ha]⟩

theorem gate_clarify_branch_total {out : Json} (conf : ℚ) (ats : List String)
    (pf : Option String) (aaf : Option (List String))
    (h : clarify_field_benign (out.getD "clarify") = true) :
    ∃ r, gate_clarify_branch out conf ats pf aaf = Except.ok r := by
  cases hc : out.getD "clarify" with
  | obj ckvs =>
    cases hq : (Json.obj ckvs).getD "question" with
    | str q =>
      cases hch : (Json.obj ckvs).getD "choices" with
      | arr choices =>
        rw [hc] at h
        simp only [clarify_field_benign, hch, List.all_eq_true] at h
        by_cases hlen : 2 ≤ choices.length ∧ choices.length ≤ 5
        · obtain ⟨cleaned, hcl⟩ := clean_choices_total choices (fun ch h2 => h ch h2)
          by_cases hshort : cleaned.length < 2
          · exact ⟨default_noop, by simp only [gate_clarify_branch, hc, hq, hch]; rw [if_neg (by simpa using hlen), hcl, except_ok_bind, if_pos hshort]; rfl⟩
          · exact ⟨_, by simp only [gate_clarify_branch, hc, hq, hch]; rw [if_neg (by simpa using hlen), hcl, except_ok_bind, if_neg hshort]; rfl⟩
        · exact ⟨default_noop, by simp only [gate_clarify_branch, hc, hq, hch]; rw [if_pos (by simpa using hlen)]⟩
      | null => exact ⟨default_noop, by simp [gate_clarify_branch, hc, hq, hch]⟩
      | bool b => exact ⟨default_noop, by simp [gate_clarify_branch, hc, hq, hch]⟩
      | int n => exact ⟨default_noop, by simp [gate_clarify_branch, hc, hq, hch]⟩
      | float q2 => exact ⟨default_noop, by simp [gate_clarify_branch, hc, hq, hch]⟩
      | str s2 => exact ⟨default_noop, by simp [gate_clarify_branch, hc, hq, hch]⟩
      | obj kvs2 => exact ⟨default_noop, by simp [gate_clarify_branch, hc, hq, hch]⟩
    | null => exact ⟨default_noop, by simp [gate_clarify_branch, hc, hq]⟩
    | bool b => exact ⟨default_noop, by simp [gate_clarify_branch, hc, hq]⟩
    | int n => exact ⟨default_noop, by simp [gate_clarify_branch, hc, hq]⟩
    | float q2 => exact ⟨default_noop, by simp [gate_clarify_branch, hc, hq]⟩
    | arr l2 => exact ⟨default_noop, by simp [gate_clarify_branch, hc, hq]⟩
    | obj kvs2 => exact ⟨default_noop, by simp [gate_clarify_branch, hc, hq]⟩
  | null => exact ⟨default_noop, by simp [gate_clarify_branch, hc]⟩
  | bool b => exact ⟨default_noop, by simp [gate_clarify_branch, hc]⟩
  | int n => exact ⟨default_noop, by simp [gate_clarify_branch, hc]⟩
  | float q2 => exact ⟨default_noop, by simp [gate_clarify_branch, hc]⟩
  | str s => exact ⟨default_noop, by simp [gate_clarify_branch, hc]⟩
  | arr l => exact ⟨default_noop, by simp [gate_clarify_branch, hc]⟩

theorem gate_out_ok_inv {out : Json} {ats : List String} {pf : Option String}
    {aaf : Option (List String)} {r : Json} {conf : ℚ}
    (hconf : conf_of out = some conf)
    (h : gate_out out ats pf aaf = Except.ok r) :
    r = default_noop ∨
    (out.getD "mode" = Json.str "NOOP" ∧ gate_noop_branch out conf = Except.ok r) ∨
    (out.getD "mode" = Json.str "EXECUTE" ∧ EXECUTE_MIN ≤ conf ∧
      gate_execute_branch out conf ats pf aaf = Except.ok r) ∨
    ((out.getD "mode" = Json.str "CLARIFY" ∨
      (out.getD "mode" = Json.str "EXECUTE" ∧ conf < EXECUTE_MIN)) ∧
      CLARIFY_MIN ≤ conf ∧ gate_clarify_branch out conf ats pf aaf = Except.ok r) := by
  by_cases ho : out.isObj = true
  · simp only [gate_out] at h
    rw [if_neg (by simp [ho])] at h
    rw [hconf] at h
    simp only [] at h
    cases hm : out.getD "mode" with
    | str mode0 =>
      simp only [hm] at h
      by_cases hv : mode0 = "EXECUTE" ∨ mode0 = "CLARIFY" ∨ mode0 = "NOOP"
      · rw [if_neg (not_not_intro hv)] at h
        rcases hv with h1 | h1 | h1
        · subst h1
          by_cases hlt : conf < EXECUTE_MIN
          · have hmode : (if ("EXECUTE" = "EXECUTE" ∧ conf < EXECUTE_MIN) then "CLARIFY"
                else "EXECUTE") = "CLARIFY" := if_pos ⟨rfl, hlt⟩
            rw [hmode] at h
            by_cases hlt2 : conf < CLARIFY_MIN
            · rw [if_pos ⟨rfl, hlt2⟩] at h
              exact Or.inl (Except.ok.inj h).symm
            · rw [if_neg (show ¬ (("CLARIFY" : String) = "CLARIFY" ∧ conf < CLARIFY_MIN)
                  from fun hh => hlt2 hh.2)] at h
              rw [if_neg (show ¬ (("CLARIFY" : String) = "NOOP") by decide)] at h
              rw [if_neg (show ¬ (("CLARIFY" : String) = "EXECUTE") by decide)] at h
              exact Or.inr (Or.inr (Or.inr ⟨Or.inr ⟨rfl, hlt⟩, not_lt.mp hlt2, h⟩))
          · have hmode : (if ("EXECUTE" = "EXECUTE" ∧ conf < EXECUTE_MIN) then "CLARIFY"
                else "EXECUTE") = "EXECUTE" := if_neg (fun hh => hlt hh.2)
            rw [hmode] at h
            rw [if_neg (show ¬ (("EXECUTE" : String) = "CLARIFY" ∧ conf < CLARIFY_MIN)
                from fun hh => absurd hh.1 (by decide))] at h
            rw [if_neg (show ¬ (("EXECUTE" : String) = "NOOP") by decide)] at h
            rw [if_pos (show ("EXECUTE" : String) = "EXECUTE" from rfl)] at h
            exact Or.inr (Or.inr (Or.inl ⟨rfl, not_lt.mp hlt, h⟩))
        · subst h1
          have hmode : (if ("CLARIFY" = "EXECUTE" ∧ conf < EXECUTE_MIN) then "CLARIFY"
              else "CLARIFY") = "CLARIFY" := ite_self "CLARIFY"
          rw [hmode] at h
          by_cases hlt2 : conf < CLARIFY_MIN
          · rw [if_pos ⟨rfl, hlt2⟩] at h
            exact Or.inl (Except.ok.inj h).symm
          · rw [if_neg (show ¬ (("CLARIFY" : String) = "CLARIFY" ∧ conf < CLARIFY_MIN)
                from fun hh => hlt2 hh.2)] at h
            rw [if_neg (show ¬ (("CLARIFY" : String) = "NOOP") by decide)] at h
            rw [if_neg (show ¬ (("CLARIFY" : String) = "EXECUTE") by decide)] at h
            exact Or.inr (Or.inr (Or.inr ⟨Or.inl rfl, not_lt.mp hlt2, h⟩))
        · subst h1
          have hmode : (if ("NOOP" = "EXECUTE" ∧ conf < EXECUTE_MIN) then "CLARIFY"
              else "NOOP") = "NOOP" := if_neg (fun hh => absurd hh.1 (by decide))
          rw [hmode] at h
          rw [if_neg (show ¬ (("NOOP" : String) = "CLARIFY" ∧ conf < CLARIFY_MIN)
              from fun hh => absurd hh.1 (by decide))] at h
          rw [if_pos (show ("NOOP" : String) = "NOOP" from rfl)] at h
          exact Or.inr (Or.inl ⟨rfl, h⟩)
      · rw [if_pos hv] at h
        exact Or.inl (Except.ok.inj h).symm
    | null => simp only [hm] at h; exact Or.inl (Except.ok.inj h).symm
    | bool b => simp only [hm] at h; exact Or.inl (Except.ok.inj h).symm
    | int n => simp only [hm] at h; exact Or.inl (Except.ok.inj h).symm
    | float q => simp only [hm] at h; exact Or.inl (Except.ok.inj h).symm
    | arr l => simp only [hm] at h; exact absurd h (by simp)
    | obj kvs => simp only [hm] at h; exact absurd h (by simp)
  · simp only [gate_out] at h
    rw [if_pos (by simpa using ho)] at h
    exact Or.inl (Except.ok.inj h).symm

theorem gate_out_not_obj {out : Json} {ats : List String} {pf : Option String}
    {aaf : Option (List String)} (ho : ¬ out.isObj = true) :
    gate_out out ats pf aaf = Except.ok default_noop := by
  simp only [gate_out]
  rw [if_pos (by simpa using ho)]

theorem gate_out_bad_mode {out : Json} {ats : List String} {pf : Option String}
    {aaf : Option (List String)} {conf : ℚ} (ho : out.isObj = true)
    (hconf : conf_of out = some conf) {mode0 : String}
    (hm : out.getD "mode" = Json.str mode0)
    (hv : ¬ (mode0 = "EXECUTE" ∨ mode0 = "CLARIFY" ∨ mode0 = "NOOP")) :
    gate_out out ats pf aaf = Except.ok default_noop := by
  simp only [gate_out]
  rw [if_neg (by simp [ho]), hconf]
  simp only []
  rw [hm]
  simp only []
  rw [if_pos hv]

theorem gate_out_mode_noop {out : Json} {ats : List String} {pf : Option String}
    {aaf : Option (List String)} {conf : ℚ} (ho : out.isObj = true)
    (hconf : conf_of out = some conf) (hm : out.getD "mode" = Json.str "NOOP") :
    gate_out out ats pf aaf = gate_noop_branch out conf := by
  simp only [gate_out]
  rw [if_neg (by simp [ho]), hconf]
  simp only []
  rw [hm]
  simp

theorem gate_out_mode_execute {out : Json} {ats : List String} {pf : Option String}
    {aaf : Option (List String)} {conf : ℚ} (ho : out.isObj = true)
    (hconf : conf_of out = some conf) (hm : out.getD "mode" = Json.str "EXECUTE")
    (hge : ¬ conf < EXECUTE_MIN) :
    gate_out out ats pf aaf = gate_execute_branch out conf ats pf aaf := by
  simp only [gate_out]
  rw [if_neg (by simp [ho]), hconf]
  simp only []
  rw [hm]
  simp [hge]

theorem gate_out_low_conf {out : Json} {ats : List String} {pf : Option String}
    {aaf : Option (List String)} {conf : ℚ} (ho : out.isObj = true)
    (hconf : conf_of out = some conf)
    (hm : out.getD "mode" = Json.str "CLARIFY" ∨ out.getD "mode" = Json.str "EXECUTE")
    (hlt : conf < CLARIFY_MIN) :
    gate_out out ats pf aaf = Except.ok default_noop := by
  simp only [gate_out]
  rw [if_neg (by simp [ho]), hconf]
  simp only []
  rcases hm with hm | hm
  · rw [hm]
    simp [hlt]
  · rw [hm]
    have hlt8 : conf < EXECUTE_MIN := lt_of_lt_of_le hlt (by decide)
    simp [hlt, hlt8]

theorem gate_out_mode_clarify {out : Json} {ats : List String} {pf : Option String}
    {aaf : Option (List String)} {conf : ℚ} (ho : out.isObj = true)
    (hconf : conf_of out = some conf)
    (hm : out.getD "mode" = Json.str "CLARIFY" ∨
      (out.getD "mode" = Json.str "EXECUTE" ∧ conf < EXECUTE_MIN))
    (hge : ¬ conf < CLARIFY_MIN) :
    gate_out out ats pf aaf = gate_clarify_branch out conf ats pf aaf := by
  simp only [gate_out]
  rw [if_neg (by simp [ho]), hconf]
  simp only []
  rcases hm with hm | ⟨hm, hlt⟩
  · rw [hm]
    simp [hge]
  · rw [hm]
    simp [hge, hlt]

theorem gate_out_mode_not_str {out : Json} {ats : List String} {pf : Option String}
    {aaf : Option (List String)} {conf : ℚ} {m : Json} (ho : out.isObj = true)
    (hconf : conf_of out = some conf) (hm : out.getD "mode" = m) (hns : m.isStr = false)
    (hh : isHashable m = true) :
    gate_out out ats pf aaf = Except.ok default_noop := by
  simp only [gate_out]
  rw [if_neg (by simp [ho]), hconf]
  simp only []
  rw [hm]
  cases m with
  | str s => simp [Json.isStr] at hns
  | null => rfl
  | bool b => rfl
  | int n => rfl
  | float q => rfl
  | arr l => simp [isHashable] at hh
  | obj kvs => simp [isHashable] at hh

theorem action_ok_ticker_not_mem {action : Json} {ats : List String}
    {pf : Option String} {aaf : Option (List String)} {t : String}
    (ht : action.getD "ticker" = Json.str t) (hnot : t ∉ ats) :
    action_ok_against_allowlists action ats pf aaf = Except.ok false := by
  simp [action_ok_against_allowlists, ht, hnot]

theorem action_ok_ticker_mem {action : Json} {ats : List String}
    {pf : Option String} {aaf : Option (List String)} {t : String}
    (h : action_ok_against_allowlists action ats pf aaf = Except.ok true)
    (ht : action.getD "ticker" = Json.str t) : t ∈ ats := by
  by_contra hnot
  rw [action_ok_ticker_not_mem ht hnot] at h
  exact absurd (Except.ok.inj h) (by simp)

-- ---------------------------------------------------------------------
-- C3: the gate degrades instead of raising
-- ---------------------------------------------------------------------

/-- C3 (amended): for every oracle result whose confidence field is a
number, boolean, null, absent, or otherwise falsy, whose mode field is not
an array or object, whose message field is a string, a list, or falsy, and
whose action objects (top level and inside each clarify choice) carry an
event_type that is not an array or object, the gate raises nothing and
returns a well-formed response, degrading to the default no-op.  (The
unamended claim covered arbitrary JSON; the counterexample shows five inputs
where llm_interpret raises: float() on a non-numeric string confidence,
slicing a truthy unsliceable message, hashing an unhashable event_type in
the seed-allowlist lookup, hashing an unhashable mode in the mode set
membership, and hashing an unhashable event_type in the event-type set
membership.) -/
theorem gate_degrades_never_raises :
    ∀ (out : Json) (ats : List String) (pf : Option String) (aaf : Option (List String)),
      conf_field_benign (out.getD "confidence") →
      isHashable (out.getD "mode") = true →
      msg_field_benign (out.getD "message") = true →
      action_field_safe (out.getD "action") = true →
      clarify_field_benign (out.getD "clarify") = true →
      ∃ r, gate_out out ats pf aaf = Except.ok r ∧ resp_well_formed r = true := by
  intro out ats pf aaf hcf hhm hmf haf hclf
  by_cases ho : out.isObj = true
  · obtain ⟨conf, hconf⟩ := conf_of_benign hcf
    cases hm : out.getD "mode" with
    | str mode0 =>
      by_cases hv : mode0 = "EXECUTE" ∨ mode0 = "CLARIFY" ∨ mode0 = "NOOP"
      · rcases hv with h1 | h1 | h1
        · subst h1
          by_cases hlt : conf < EXECUTE_MIN
          · by_cases hlt2 : conf < CLARIFY_MIN
            · exact ⟨default_noop, gate_out_low_conf ho hconf (Or.inr hm) hlt2, rfl⟩
            · obtain ⟨r, hr⟩ := gate_clarify_branch_total conf ats pf aaf hclf
              refine ⟨r, ?_, ?_⟩
              · rw [gate_out_mode_clarify ho hconf (Or.inr ⟨hm, hlt⟩) hlt2]; exact hr
              · rcases gate_clarify_branch_ok hr with rfl | ⟨-, -, -, hwf, -⟩
                · rfl
                · exact hwf
          · obtain ⟨r, hr⟩ := gate_execute_branch_total conf ats pf aaf haf
            refine ⟨r, ?_, ?_⟩
            · rw [gate_out_mode_execute ho hconf hm hlt]; exact hr
            · rcases gate_execute_branch_ok hr with rfl | ⟨akvs, sp, -, -, -, rfl⟩
              · rfl
              · rfl
        · subst h1
          by_cases hlt2 : conf < CLARIFY_MIN
          · exact ⟨default_noop, gate_out_low_conf ho hconf (Or.inl hm) hlt2, rfl⟩
          · obtain ⟨r, hr⟩ := gate_clarify_branch_total conf ats pf aaf hclf
            refine ⟨r, ?_, ?_⟩
            · rw [gate_out_mode_clarify ho hconf (Or.inl hm) hlt2]; exact hr
            · rcases gate_clarify_branch_ok hr with rfl | ⟨-, -, -, hwf, -⟩
              · rfl
              · exact hwf
        · subst h1
          obtain ⟨r, hr⟩ := gate_noop_branch_total conf hmf
          refine ⟨r, ?_, (gate_noop_branch_ok hr).2.2.2.2⟩
          rw [gate_out_mode_noop ho hconf hm]; exact hr
      · exact ⟨default_noop, gate_out_bad_mode ho hconf hm hv, rfl⟩
    | null => exact ⟨default_noop, gate_out_mode_not_str ho hconf hm rfl rfl, rfl⟩
    | bool b => exact ⟨default_noop, gate_out_mode_not_str ho hconf hm rfl rfl, rfl⟩
    | int n => exact ⟨default_noop, gate_out_mode_not_str ho hconf hm rfl rfl, rfl⟩
    | float q => exact ⟨default_noop, gate_out_mode_not_str ho hconf hm rfl rfl, rfl⟩
    | arr l => rw [hm] at hhm; simp [isHashable] at hhm
    | obj kvs => rw [hm] at hhm; simp [isHashable] at hhm
  · exact ⟨default_noop, gate_out_not_obj ho, rfl⟩

def c3cex_conf : Json :=
  Json.obj [("mode", Json.str "EXECUTE"), ("confidence", Json.str "high"),
    ("action", Json.null), ("clarify", Json.null), ("message", Json.null)]

def c3cex_msg : Json :=
  Json.obj [("mode", Json.str "NOOP"),
    ("confidence", Json.float ⟨9, 10, by decide, by decide⟩),
    ("action", Json.null), ("clarify", Json.null), ("message", Json.int 5)]

def c3cex_seed : Json :=
  Json.obj [("mode", Json.str "EXECUTE"),
    ("confidence", Json.float ⟨9, 10, by decide, by decide⟩),
    ("action", Json.obj [("type", Json.str "START_EVENT"), ("ticker", Json.str "AAPL"),
      ("event_type", Json.arr [Json.int 1]), ("field", Json.null),
      ("answer_text", Json.null), ("seed_payload", Json.obj [("note", Json.str "x")])]),
    ("clarify", Json.null), ("message", Json.null)]

def c3cex_mode : Json :=
  Json.obj [("mode", Json.arr []),
    ("confidence", Json.float ⟨1, 2, by decide, by decide⟩),
    ("action", Json.null), ("clarify", Json.null), ("message", Json.null)]

def c3cex_ev : Json :=
  Json.obj [("mode", Json.str "EXECUTE"),
    ("confidence", Json.float ⟨9, 10, by decide, by decide⟩),
    ("action", Json.obj [("type", Json.str "START_EVENT"), ("ticker", Json.str "AAPL"),
      ("event_type", Json.arr [Json.int 1]), ("field", Json.null),
      ("answer_text", Json.null), ("seed_payload", Json.null)]),
    ("clarify", Json.null), ("message", Json.null)]

/-- C3 counterexample: five schema-violating oracle outputs on which
llm_interpret raises instead of degrading — float("high") raises ValueError;
slicing the integer message 5 raises TypeError in the NOOP return;
SEED_ALLOWLIST.get with the unhashable list event_type raises TypeError
during seed sanitization; the list mode raises TypeError in the
`mode not in` set membership; and the list event_type with a falsy
seed_payload passes sanitization untouched and the allowed ticker passes the
list-membership ticker gate, after which `ev not in ALLOWED_EVENT_TYPES`
hashes the list and raises TypeError. -/
theorem gate_raises_cex :
    except_ok (gate_out c3cex_conf ["AAPL"] Option.none Option.none) = false ∧
    except_ok (gate_out c3cex_msg ["AAPL"] Option.none Option.none) = false ∧
    except_ok (gate_out c3cex_seed ["AAPL"] Option.none Option.none) = false ∧
    except_ok (gate_out c3cex_mode ["AAPL"] Option.none Option.none) = false ∧
    except_ok (gate_out c3cex_ev ["AAPL"] Option.none Option.none) = false :=
  ⟨rfl, rfl, rfl, rfl, rfl⟩

def c3wit_out : Json :=
  Json.obj [("mode", Json.str "EXECUTE"),
    ("confidence", Json.float ⟨9, 10, by decide, by decide⟩),
    ("action", Json.obj [("type", Json.str "SET_CONTEXT"), ("ticker", Json.str "AAPL"),
      ("event_type", Json.null), ("field", Json.null),
      ("answer_text", Json.null), ("seed_payload", Json.null)]),
    ("clarify", Json.null), ("message", Json.null)]

/-- C3 witness: the amended theorem applied to a benign EXECUTE result. -/
theorem gate_degrades_never_raises_witness :
    ∃ r, gate_out c3wit_out ["AAPL"] Option.none Option.none = Except.ok r ∧
      resp_well_formed r = true :=
  gate_degrades_never_raises c3wit_out ["AAPL"] Option.none Option.none
    (by trivial) rfl rfl rfl rfl

-- ---------------------------------------------------------------------
-- C8: the two-threshold confidence policy
-- ---------------------------------------------------------------------

/-- C8: the confidence policy of the gate: an EXECUTE result below 0.80
yields a CLARIFY-mode response or the default no-op; an EXECUTE or CLARIFY
result below 0.40 yields exactly the default no-op; and any accepted
response in EXECUTE mode came from an EXECUTE result whose confidence was at
least 0.80 and carries that confidence — no EXECUTE action below the
threshold is ever forwarded. -/
theorem gate_confidence_policy :
    ∀ (out : Json) (ats : List String) (pf : Option String) (aaf : Option (List String))
      (conf : ℚ) (r : Json),
      conf_of out = some conf →
      gate_out out ats pf aaf = Except.ok r →
      ((out.getD "mode" = Json.str "EXECUTE" → conf < EXECUTE_MIN →
        r.getD "mode" = Json.str "CLARIFY" ∨ r = default_noop) ∧
       ((out.getD "mode" = Json.str "EXECUTE" ∨ out.getD "mode" = Json.str "CLARIFY") →
        conf < CLARIFY_MIN → r = default_noop) ∧
       (r.getD "mode" = Json.str "EXECUTE" →
        out.getD "mode" = Json.str "EXECUTE" ∧ EXECUTE_MIN ≤ conf ∧
        r.getD "confidence" = Json.float conf)) := by
  intro out ats pf aaf conf r hconf hr
  have hinv := gate_out_ok_inv hconf hr
  refine ⟨?_, ?_, ?_⟩
  · intro hm hlt
    rcases hinv with rfl | ⟨hm2, hn⟩ | ⟨hm2, hge, he⟩ | ⟨hm2, hge, hc⟩
    · exact Or.inr rfl
    · exact absurd (hm.symm.trans hm2) (by simp)
    · exact absurd hlt (not_lt.mpr hge)
    · rcases gate_clarify_branch_ok hc with rfl | ⟨hmode, -⟩
      · exact Or.inr rfl
      · exact Or.inl hmode
  · intro hm hlt
    rcases hinv with rfl | ⟨hm2, hn⟩ | ⟨hm2, hge, he⟩ | ⟨hm2, hge, hc⟩
    · rfl
    · rcases hm with hm | hm <;> exact absurd (hm.symm.trans hm2) (by simp)
    · exact absurd (lt_of_lt_of_le hlt (le_trans (by decide) hge)) (lt_irrefl conf)
    · exact absurd hlt (not_lt.mpr hge)
  · intro hmr
    rcases hinv with rfl | ⟨hm2, hn⟩ | ⟨hm2, hge, he⟩ | ⟨hm2, hge, hc⟩
    · simp [default_noop, Json.getD, Json.find, lookupJ] at hmr
    · obtain ⟨hmode, -, -, -, -⟩ := gate_noop_branch_ok hn
      exact absurd (hmr.symm.trans hmode) (by simp)
    · rcases gate_execute_branch_ok he with rfl | ⟨akvs, sp, ha, hs, hok, rfl⟩
      · simp [default_noop, Json.getD, Json.find, lookupJ] at hmr
      · exact ⟨hm2, hge, rfl⟩
    · rcases gate_clarify_branch_ok hc with rfl | ⟨hmode, -⟩
      · simp [default_noop, Json.getD, Json.find, lookupJ] at hmr
      · exact absurd (hmr.symm.trans hmode) (by simp)

def c8wit_out : Json :=
  Json.obj [("mode", Json.str "EXECUTE"),
    ("confidence", Json.float ⟨1, 2, by decide, by decide⟩),
    ("action", Json.null), ("clarify", Json.null), ("message", Json.null)]

/-- C8 witness: the spec's downgrade scenario — EXECUTE at confidence 0.5
with no clarify payload collapses through CLARIFY to the default no-op. -/
theorem gate_confidence_policy_witness :
    gate_out c8wit_out ["AAPL"] Option.none Option.none = Except.ok default_noop ∧
    (default_noop.getD "mode" = Json.str "CLARIFY" ∨ default_noop = default_noop) :=
  ⟨rfl, (gate_confidence_policy c8wit_out ["AAPL"] Option.none Option.none
    ⟨1, 2, by decide, by decide⟩ default_noop rfl rfl).1 rfl (by decide)⟩

-- ---------------------------------------------------------------------
-- C4: the ticker allowlist gate
-- ---------------------------------------------------------------------

/-- C4 (amended): an EXECUTE-mode oracle result at or above the execute
threshold whose (sanitize-safe) action names a ticker outside the allowed
list collapses to the default no-op regardless of which allowed confidence
it claims; and no accepted gate output — its top-level action or any of its
clarify-choice actions — ever names a ticker outside the allowed list.  (In
NOOP or CLARIFY modes the whole response need not be the default no-op; the
counterexample shows a NOOP result carrying a disallowed ticker whose output
keeps confidence 0.9 — the disallowed action itself is still dropped.) -/
theorem gate_ticker_allowlist :
    ∀ (out : Json) (ats : List String) (pf : Option String) (aaf : Option (List String))
      (conf : ℚ) (r : Json) (akvs : List (String × Json)) (t : String),
      (out.isObj = true → conf_of out = some conf → ¬ conf < EXECUTE_MIN →
       out.getD "mode" = Json.str "EXECUTE" →
       out.getD "action" = Json.obj akvs →
       action_field_benign (Json.obj akvs) = true →
       (Json.obj akvs).getD "ticker" = Json.str t →
       t ∉ ats →
       gate_out out ats pf aaf = Except.ok default_noop) ∧
      (gate_out out ats pf aaf = Except.ok r →
       conf_of out = some conf →
       (∀ akvs2 t2, r.getD "action" = Json.obj akvs2 →
         (Json.obj akvs2).getD "ticker" = Json.str t2 → t2 ∈ ats) ∧
       (∀ ch ∈ clarify_choices_of r, ∀ akvs2 t2, ch.getD "action" = Json.obj akvs2 →
         (Json.obj akvs2).getD "ticker" = Json.str t2 → t2 ∈ ats)) := by
  intro out ats pf aaf conf r akvs t
  constructor
  · intro ho hconf hge hm ha haf ht hnot
    rw [gate_out_mode_execute ho hconf hm hge]
    simp only [gate_execute_branch, ha]
    simp only [action_field_benign] at haf
    obtain ⟨sp, hs⟩ := except_ok_exists haf
    rw [hs, except_ok_bind]
    have ht2 : (Json.obj (setKey akvs "seed_payload" sp)).getD "ticker" = Json.str t := by
      simp only [Json.getD, Json.find]
      rw [lookupJ_setKey_ne akvs "seed_payload" sp (by decide)]
      simpa [Json.getD, Json.find] using ht
    rw [action_ok_ticker_not_mem ht2 hnot]
    rfl
  · intro hr hconf
    have hinv := gate_out_ok_inv hconf hr
    have hdefault :
        (∀ akvs2 t2, default_noop.getD "action" = Json.obj akvs2 →
          (Json.obj akvs2).getD "ticker" = Json.str t2 → t2 ∈ ats) ∧
        (∀ ch ∈ clarify_choices_of default_noop, ∀ akvs2 t2,
          ch.getD "action" = Json.obj akvs2 →
          (Json.obj akvs2).getD "ticker" = Json.str t2 → t2 ∈ ats) := by
      constructor
      · intro akvs2 t2 hact ht2
        simp [default_noop, Json.getD, Json.find, lookupJ] at hact
      · intro ch hch
        simp [clarify_choices_of, default_noop, Json.getD, Json.find, lookupJ] at hch
    rcases hinv with rfl | ⟨hm2, hn⟩ | ⟨hm2, hge, he⟩ | ⟨hm2, hge, hc⟩
    · exact hdefault
    · obtain ⟨-, -, hact, hcl, -⟩ := gate_noop_branch_ok hn
      constructor
      · intro akvs2 t2 hact2 ht2
        rw [hact] at hact2
        exact absurd hact2 (by simp)
      · intro ch hch
        simp only [clarify_choices_of] at hch
        rw [hcl] at hch
        simp [Json.getD, Json.find] at hch
    · rcases gate_execute_branch_ok he with rfl | ⟨akvs3, sp, ha3, hs3, hok3, rfl⟩
      · exact hdefault
      · constructor
        · intro akvs2 t2 hact2 ht2
          have : Json.obj (setKey akvs3 "seed_payload" sp) = Json.obj akvs2 := hact2
          rw [← this] at ht2
          exact action_ok_ticker_mem hok3 ht2
        · intro ch hch
          simp [clarify_choices_of, Json.getD, Json.find, lookupJ] at hch
    · rcases gate_clarify_branch_ok hc with rfl | ⟨-, -, hact, -, hchoices⟩
      · exact hdefault
      · constructor
        · intro akvs2 t2 hact2 ht2
          rw [hact] at hact2
          exact absurd hact2 (by simp)
        · intro ch hch akvs2 t2 hact2 ht2
          obtain ⟨label, akvs3, rfl, hok3⟩ := hchoices ch hch
          have : Json.obj akvs3 = Json.obj akvs2 := hact2
          rw [← this] at ht2
          exact action_ok_ticker_mem hok3 ht2

def c4cex_out : Json :=
  Json.obj [("mode", Json.str "NOOP"),
    ("confidence", Json.float ⟨9, 10, by decide, by decide⟩),
    ("action", Json.obj [("type", Json.str "SET_CONTEXT"), ("ticker", Json.str "MSFT"),
      ("event_type", Json.null), ("field", Json.null),
      ("answer_text", Json.null), ("seed_payload", Json.null)]),
    ("clarify", Json.null), ("message", Json.null)]

def c4cex_resp : Json :=
  Json.obj [("mode", Json.str "NOOP"),
    ("confidence", Json.float ⟨9, 10, by decide, by decide⟩),
    ("action", Json.null), ("clarify", Json.null),
    ("message", Json.str DEFAULT_NOOP_MESSAGE)]

set_option maxRecDepth 100000 in
/-- C4 counterexample: a NOOP-mode oracle result whose action names "MSFT"
against allowed tickers ["AAPL"]: the gate accepts it and returns a NOOP
response with confidence 0.9, which is not the default no-op response (the
default carries confidence 0.0), refuting "its output is the default no-op
response" for every oracle result naming a disallowed ticker. -/
theorem gate_ticker_not_default_noop_cex :
    gate_out c4cex_out ["AAPL"] Option.none Option.none = Except.ok c4cex_resp ∧
    c4cex_resp ≠ default_noop := by
  refine ⟨rfl, fun h => ?_⟩
  have h2 := congrArg (fun r => r.getD "confidence") h
  simp [c4cex_resp, default_noop, Json.getD, Json.find, lookupJ] at h2
  exact absurd h2 (by decide)

def c4wit_out : Json :=
  Json.obj [("mode", Json.str "EXECUTE"),
    ("confidence", Json.float ⟨9, 10, by decide, by decide⟩),
    ("action", Json.obj [("type", Json.str "SET_CONTEXT"), ("ticker", Json.str "MSFT"),
      ("event_type", Json.null), ("field", Json.null),
      ("answer_text", Json.null), ("seed_payload", Json.null)]),
    ("clarify", Json.null), ("message", Json.null)]

/-- C4 witness: the spec's ticker-rejection scenario — an EXECUTE action
naming MSFT against allowed tickers ["AAPL"] collapses to the default no-op. -/
theorem gate_ticker_allowlist_witness :
    gate_out c4wit_out ["AAPL"] Option.none Option.none = Except.ok default_noop :=
  (gate_ticker_allowlist c4wit_out ["AAPL"] Option.none Option.none
      ⟨9, 10, by decide, by decide⟩ default_noop
      [("type", Json.str "SET_CONTEXT"), ("ticker", Json.str "MSFT"),
       ("event_type", Json.null), ("field", Json.null),
       ("answer_text", Json.null), ("seed_payload", Json.null)] "MSFT").1
    rfl rfl (by decide) rfl rfl rfl rfl (by decide)

-- ---------------------------------------------------------------------
-- C9: seed-payload sanitization
-- ---------------------------------------------------------------------

/-- C9: for each event type, seed sanitization keeps exactly the pairs whose
key is the type's single allowlisted narrative key (update_summary for
THESIS_UPDATE, note for RISK_NOTE, rationale for RESIZE, rule_text for
TICKER_RULE, lesson for POST_MORTEM) and silently drops every other key;
for INITIATE the sanitized seed is always null — no key is ever kept. -/
theorem seed_sanitization_spec :
    (∀ et a, (et, a) ∈ [("THESIS_UPDATE", "update_summary"), ("RISK_NOTE", "note"),
        ("RESIZE", "rationale"), ("TICKER_RULE", "rule_text"), ("POST_MORTEM", "lesson")] →
      ∀ kvs : List (String × Json),
        ∃ sp, sanitize_seed_payload (Json.str et) (Json.obj kvs) = Except.ok sp ∧
          ∀ k v, (k, v) ∈ sp.objEntries ↔ ((k, v) ∈ kvs ∧ k = a)) ∧
    (∀ kvs : List (String × Json),
      sanitize_seed_payload (Json.str "INITIATE") (Json.obj kvs) = Except.ok Json.null) := by
  constructor
  · intro et a h kvs
    simp only [List.mem_cons, List.not_mem_nil, or_false, Prod.mk.injEq] at h
    rcases h with ⟨rfl, rfl⟩ | ⟨rfl, rfl⟩ | ⟨rfl, rfl⟩ | ⟨rfl, rfl⟩ | ⟨rfl, rfl⟩ <;>
      cases kvs with
      | nil => exact ⟨Json.null, rfl, by simp [Json.objEntries]⟩
      | cons p rest =>
        refine ⟨_, rfl, ?_⟩
        intro k v
        simp [Json.objEntries, List.mem_filter, SEED_ALLOWLIST]
  · intro kvs
    cases kvs with
    | nil => rfl
    | cons p rest => rfl

/-- C9 witness: the spec's sanitization scenario for THESIS_UPDATE. -/
theorem seed_sanitization_spec_witness :
    ∃ sp, sanitize_seed_payload (Json.str "THESIS_UPDATE")
        (Json.obj [("update_summary", Json.str "ok"), ("conviction_delta", Json.int 999)]) =
      Except.ok sp ∧
      ∀ k v, (k, v) ∈ sp.objEntries ↔
        ((k, v) ∈ [("update_summary", Json.str "ok"), ("conviction_delta", Json.int 999)] ∧
         k = "update_summary") :=
  seed_sanitization_spec.1 "THESIS_UPDATE" "update_summary" (by simp)
    [("update_summary", Json.str "ok"), ("conviction_delta", Json.int 999)]

-- ---------------------------------------------------------------------
-- C10: the allowed_tickers pre-filter
-- ---------------------------------------------------------------------

theorem asStringList_map_str (l : List String) :
    asStringList (Json.arr (l.map Json.str)) = some l := by
  induction l with
  | nil => rfl
  | cons s rest ih =>
    simp only [asStringList, List.map_cons, List.all_cons, Json.isStr, Bool.true_and] at ih ⊢
    by_cases hall : (rest.map Json.str).all Json.isStr = true
    · rw [if_pos hall] at ih
      rw [if_pos hall]
      simp only [List.filterMap_cons]
      rw [Option.some.inj ih]
    · rw [if_neg hall] at ih
      cases ih

/-- C10 (amended): the caller-supplied allowed_tickers list is filtered with
re.match, which anchors the ticker-token pattern at the start of each entry
but not at its end: every surviving entry begins with an uppercase letter
(so a lowercase ticker can never survive), but an entry with trailing text
after a valid token — "AAPL junk" — survives and can then pass the gate, so
"otherwise malformed" tickers are not all rejected.  When no entry survives,
the endpoint answers with the fixed ticker-clarification response, and any
pre-oracle response is returned without the oracle being consulted. -/
theorem interpret_ticker_prefilter :
    (∀ s, ticker_token_match s = true →
      ∃ c cs, s.toList = c :: cs ∧ isUpperAZ c = true) ∧
    (∀ (body : Json) (l : List String),
      body.isObj = true →
      pyStrip (pyStr ((body.find "text").getD (Json.str ""))) ≠ "" →
      body.getD "allowed_tickers" = Json.arr (l.map Json.str) →
      ((l.filter ticker_token_match = [] →
        llm_interpret_pre body = PreOutcome.respond no_ticker_clarify) ∧
       (l.filter ticker_token_match ≠ [] →
        ∃ pfv aafv, llm_interpret_pre body =
          PreOutcome.proceed (l.filter ticker_token_match) pfv aafv))) ∧
    (∀ (body oracle r : Json), llm_interpret_pre body = PreOutcome.respond r →
      llm_interpret_full body oracle = Except.ok r) := by
  refine ⟨?_, ?_, ?_⟩
  · intro s h
    cases hs : s.toList with
    | nil =>
      rw [ticker_token_match, hs] at h
      simp [ticker_match_at] at h
    | cons c cs =>
      refine ⟨c, cs, rfl, ?_⟩
      by_contra hup
      rw [ticker_token_match, hs] at h
      rw [Bool.not_eq_true] at hup
      simp [ticker_match_at, hup] at h
  · intro body l hb htext hat
    have hpre : llm_interpret_pre body =
        (if (l.filter ticker_token_match).isEmpty then PreOutcome.respond no_ticker_clarify
         else
           PreOutcome.proceed (l.filter ticker_token_match)
             (draft_pending (if (if (body.getD "draft").isTruthy then body.getD "draft"
                 else Json.obj []).isObj then
               (if (body.getD "draft").isTruthy then body.getD "draft" else Json.obj [])
               else Json.obj []))
             (draft_missing (if (if (body.getD "draft").isTruthy then body.getD "draft"
                 else Json.obj []).isObj then
               (if (body.getD "draft").isTruthy then body.getD "draft" else Json.obj [])
               else Json.obj []))) := by
      simp only [llm_interpret_pre]
      rw [if_neg (not_not_intro hb), if_neg htext, hat]
      simp only [asStringList_map_str]
    constructor
    · intro hf
      rw [hpre, hf]
      rfl
    · intro hf
      exact ⟨_, _, by rw [hpre, if_neg (by simpa [List.isEmpty_iff] using hf)]⟩
  · intro body oracle r h
    simp only [llm_interpret_full, h]

def c10cex_body : Json :=
  Json.obj [("text", Json.str "log it"),
    ("allowed_tickers", Json.arr [Json.str "AAPL junk"])]

def c10cex_oracle : Json :=
  Json.obj [("mode", Json.str "EXECUTE"),
    ("confidence", Json.float ⟨9, 10, by decide, by decide⟩),
    ("action", Json.obj [("type", Json.str "SET_CONTEXT"), ("ticker", Json.str "AAPL junk"),
      ("event_type", Json.null), ("field", Json.null),
      ("answer_text", Json.null), ("seed_payload", Json.null)]),
    ("clarify", Json.null), ("message", Json.null)]

def c10cex_resp : Json :=
  Json.obj [("mode", Json.str "EXECUTE"),
    ("confidence", Json.float ⟨9, 10, by decide, by decide⟩),
    ("action", Json.obj [("type", Json.str "SET_CONTEXT"), ("ticker", Json.str "AAPL junk"),
      ("event_type", Json.null), ("field", Json.null),
      ("answer_text", Json.null), ("seed_payload", Json.null)]),
    ("clarify", Json.null), ("message", Json.null)]

/-- C10 counterexample: the caller-supplied entry "AAPL junk" does not have
the ticker-token shape, yet re.match keeps it (prefix anchor only), the
endpoint proceeds with it as an allowed ticker, and an EXECUTE action naming
the malformed ticker "AAPL junk" passes the gate — refuting "a lowercase or
otherwise malformed ticker can never pass the gate".  The lowercase "aapl"
is indeed dropped. -/
theorem ticker_prefilter_prefix_cex :
    ticker_token_match "AAPL junk" = true ∧
    ticker_token_match "aapl" = false ∧
    llm_interpret_pre c10cex_body =
      PreOutcome.proceed ["AAPL junk"] Option.none Option.none ∧
    llm_interpret_full c10cex_body c10cex_oracle = Except.ok c10cex_resp :=
  ⟨by decide, by decide, rfl, rfl⟩

def c10wit_body : Json :=
  Json.obj [("text", Json.str "log it"),
    ("allowed_tickers", Json.arr [Json.str "aapl"])]

/-- C10 witness: a caller-supplied all-lowercase allowlist survives nothing,
so the endpoint answers the fixed ticker clarification without consulting
the oracle. -/
theorem interpret_ticker_prefilter_witness :
    llm_interpret_pre c10wit_body = PreOutcome.respond no_ticker_clarify ∧
    llm_interpret_full c10wit_body Json.null = Except.ok no_ticker_clarify := by
  have h1 := (interpret_ticker_prefilter.2.1 c10wit_body ["aapl"] rfl (by decide) rfl).1 rfl
  exact ⟨h1, interpret_ticker_prefilter.2.2 c10wit_body Json.null no_ticker_clarify h1⟩
